import Mathlib

/-!
Verification development for the NEP panel-construction pipeline
(`00_prepare_base_panel_v2.py`).  The pipeline's tables are shallowly
embedded as Lean lists of structures; pandas/numpy float columns are
modelled by the type `F` below (a rational number, NaN, or a signed
infinity), which mirrors IEEE-754 float64 arithmetic up to rounding
(exact rationals stand in for finite floats; negative zero is not
distinguished from zero).  NaN is pandas' missing-value marker.
-/

namespace NEP

/-- Model of a pandas float cell: a finite value (as an exact rational),
NaN (pandas' missing marker), or a signed infinity. -/
inductive F where
  | num (q : ℚ)
  | nan
  | inf
  | ninf
deriving DecidableEq

/-- NaN test: this is `pandas.isna` on a float cell (infinities are not NA). -/
def F.isNan : F → Bool
  | .nan => true
  | _ => false

def F.neg : F → F
  | .num q => .num (-q)
  | .nan => .nan
  | .inf => .ninf
  | .ninf => .inf

/-- IEEE-style addition (NaN propagates; inf + (-inf) = NaN). -/
def F.add : F → F → F
  | .nan, _ => .nan
  | _, .nan => .nan
  | .inf, .ninf => .nan
  | .ninf, .inf => .nan
  | .inf, _ => .inf
  | _, .inf => .inf
  | .ninf, _ => .ninf
  | _, .ninf => .ninf
  | .num a, .num b => .num (a + b)

/-- IEEE-style multiplication (NaN propagates; inf * 0 = NaN). -/
def F.mul : F → F → F
  | .nan, _ => .nan
  | _, .nan => .nan
  | .num a, .num b => .num (a * b)
  | .inf, .num b => if b = 0 then .nan else if 0 < b then .inf else .ninf
  | .num a, .inf => if a = 0 then .nan else if 0 < a then .inf else .ninf
  | .ninf, .num b => if b = 0 then .nan else if 0 < b then .ninf else .inf
  | .num a, .ninf => if a = 0 then .nan else if 0 < a then .ninf else .inf
  | .inf, .inf => .inf
  | .inf, .ninf => .ninf
  | .ninf, .inf => .ninf
  | .ninf, .ninf => .inf

/-- IEEE-style division: x/0 is a signed infinity for x ≠ 0 and NaN for
0/0; x/inf is 0; inf/inf is NaN; NaN propagates.  This is numpy's
`true_divide` on float64 columns (which never raises). -/
def F.div : F → F → F
  | .nan, _ => .nan
  | _, .nan => .nan
  | .num a, .num b =>
      if b = 0 then (if a = 0 then .nan else if 0 < a then .inf else .ninf)
      else .num (a / b)
  | .num _, .inf => .num 0
  | .num _, .ninf => .num 0
  | .inf, .num b => if 0 ≤ b then .inf else .ninf
  | .ninf, .num b => if 0 ≤ b then .ninf else .inf
  | .inf, .inf => .nan
  | .inf, .ninf => .nan
  | .ninf, .inf => .nan
  | .ninf, .ninf => .nan

/-- Source: `Series.fillna(c)`: replaces NaN by `c`; leaves every other value
(including infinities) unchanged. -/
def F.fillna (c : ℚ) : F → F
  | .nan => .num c
  | x => x

/-- Strict comparison `x > 0` as pandas evaluates it (NaN > 0 is False). -/
def F.gtZero : F → Bool
  | .num q => decide (0 < q)
  | .inf => true
  | _ => false

/-- Float equality comparison as numpy evaluates `==` (NaN equals nothing,
inf == inf is True). -/
def F.feq : F → F → Bool
  | .num a, .num b => decide (a = b)
  | .inf, .inf => true
  | .ninf, .ninf => true
  | _, _ => false

/-- pandas `groupby(...).sum()` over one group's values: NaNs are skipped
(`skipna`), and an empty or all-NaN group sums to 0.0. -/
def gsum (l : List F) : F :=
  (l.filter (fun x => !x.isNan)).foldl F.add (F.num 0)

/-- pandas `groupby(...).mean()` over one group's values: NaNs skipped;
an empty or all-NaN group yields NaN. -/
def gmean (l : List F) : F :=
  let vs := l.filter (fun x => !x.isNan)
  match vs with
  | [] => F.nan
  | _ :: _ => (vs.foldl F.add (F.num 0)).div (F.num vs.length)

/-- pandas `GroupBy.first` aggregation: the first non-NaN value of the
group, NaN if there is none. -/
def firstNonNan : List F → F
  | [] => F.nan
  | x :: xs => if x.isNan then firstNonNan xs else x

/-- Extract the rational from a finite float (0 for NaN/infinities;
only used on values known to be finite). -/
def qOf : F → ℚ
  | .num q => q
  | _ => 0

/- ### String helpers (ASCII, matching the pipeline's data) -/

/-- Python `str.lower()` restricted to ASCII (the pipeline's labels are
ASCII). -/
def lowerStr (s : String) : String := ⟨s.data.map Char.toLower⟩

def isSpaceChar (c : Char) : Bool :=
  c = ' ' || c = '\t' || c = '\n' || c = '\r'

/-- Python `str.strip()` (ASCII whitespace). -/
def trimChars (l : List Char) : List Char :=
  ((l.dropWhile isSpaceChar).reverse.dropWhile isSpaceChar).reverse

/-- Python `str.title()` on ASCII text: the first letter of each
letter-run is uppercased, the following letters lowercased. -/
def titleChars : List Char → Bool → List Char
  | [], _ => []
  | c :: cs, prevAlpha =>
      (if c.isAlpha then (if prevAlpha then c.toLower else c.toUpper) else c)
        :: titleChars cs c.isAlpha

/-- Source: `str(prov).strip().title()` from `normalize_province`. -/
def stripTitle (s : String) : String := ⟨titleChars (trimChars s.data) false⟩

/-- The alias map of `normalize_province`. -/
def provinceAliases : List (String × String) :=
  [("Nfld.", "Newfoundland And Labrador"),
   ("Nwt", "Northwest Territories"),
   ("B.C.", "British Columbia"),
   ("P.E.I.", "Prince Edward Island")]

/-- Source: `normalize_province`: strip + title-case, then the alias map (with the
title-cased label itself as default). -/
def normalizeProvince (s : String) : String :=
  let t := stripTitle s
  match provinceAliases.lookup t with
  | some v => v
  | none => t

/-- Source: `included_geo`: the 9 admitted provinces. -/
def includedGeoList : List String :=
  ["Alberta", "British Columbia", "Manitoba", "New Brunswick",
   "Newfoundland And Labrador", "Nova Scotia", "Ontario", "Quebec",
   "Saskatchewan"]

/-- Does `pat` start the list `l`? -/
def startsWithL : List Char → List Char → Bool
  | [], _ => true
  | _ :: _, [] => false
  | a :: as, b :: bs => a = b && startsWithL as bs

/-- Does `pat` occur as a contiguous sublist of `l`? -/
def hasSubL (pat : List Char) : List Char → Bool
  | [] => startsWithL pat []
  | c :: cs => startsWithL pat (c :: cs) || hasSubL pat cs

/-- Case-insensitive substring test: `Series.str.contains(pat, case=False)`
for a literal pattern. -/
def containsCI (hay pat : String) : Bool :=
  hasSubL (lowerStr pat).data (lowerStr hay).data

/-- Does `p1` occur in `l`, followed (possibly later) by `p2`?  This is the
regex `p1.*p2` of `_gdp_market_prices_mask`. -/
def hasSubThenL (p1 p2 : List Char) : List Char → Bool
  | [] => startsWithL p1 [] && hasSubL p2 []
  | c :: cs =>
      (startsWithL p1 (c :: cs) && hasSubL p2 ((c :: cs).drop p1.length))
        || hasSubThenL p1 p2 cs

/- ### Generic table helpers -/

/-- A (Year, Province, value) row: the shape of the CPI table
(`CPI_index`), the total-GDP table (`GDP_Real_Total`), the total
compensation, employment and population tables. -/
structure YPVal where
  year : Int
  prov : String
  v : F
deriving DecidableEq

def keyYP (r : YPVal) : Int × String := (r.year, r.prov)

/-- Source: `drop_duplicates(keys, keep="first")`: keeps the first row of each key
in list order. -/
def dedupByKey {α κ : Type} [DecidableEq κ] (key : α → κ) : List α → List α
  | [] => []
  | a :: as =>
      a :: dedupByKey key (as.filter (fun b => decide (key b ≠ key a)))
termination_by l => l.length
decreasing_by
  exact Nat.lt_succ_of_le (List.length_filter_le _ _)

/-- Source: `merge(cpi, on=["Year","Province"], how="left")` followed by reading
`CPI_index`: the matching row's value (`cpi_final` is key-unique, so the
first match is the only match), NaN when there is no match. -/
def cpiAt (cpi : List YPVal) (y : Int) (p : String) : F :=
  match cpi.find? (fun c => c.year = y && c.prov = p) with
  | some c => c.v
  | none => F.nan

/-- Source: `SCALE_MAP` with `.fillna(1)`: unrecognized scale tags multiply by 1. -/
def scaleMult (s : String) : ℚ :=
  if lowerStr s = "units" then 1
  else if lowerStr s = "thousands" then 1000
  else if lowerStr s = "millions" then 1000000
  else 1

/-- Source: `add_dollar_value`: `VALUE_DOLLARS = to_numeric(VALUE) * mult`. -/
def dollarValue (value : F) (scalar : String) : F :=
  value.mul (F.num (scaleMult scalar))

/- ### Price Deflator: the CPI table (source lines 94-114) -/

/-- A raw CPI observation (18100004): reference year (first 4 chars of
`REF_DATE`), raw `GEO` label, `Products and product groups`, `VALUE`. -/
structure CpiRaw where
  year : Int
  geo : String
  product : String
  value : F
deriving DecidableEq

/-- The `all-items` product filter (line 99, case-insensitive). -/
def allItems (r : CpiRaw) : Bool := lowerStr r.product = "all-items"

/-- The rows feeding `cpi_prov`: all-items, admitted province, Year ≥ 1978
(no upper bound in the source). -/
def cpiProvRows (raw : List CpiRaw) : List CpiRaw :=
  (raw.filter allItems).filter
    (fun r => decide (normalizeProvince r.geo ∈ includedGeoList)
      && decide (1978 ≤ r.year))

/-- The `VALUE`s of one (Year, Province) group of `cpi_prov`. -/
def cpiGroupVals (raw : List CpiRaw) (k : Int × String) : List F :=
  ((cpiProvRows raw).filter
    (fun r => decide ((r.year, normalizeProvince r.geo) = k))).map
    (fun r => r.value)

/-- Source: `cpi_prov`: groupby (Year, Province) mean of `VALUE`. -/
def cpiProvTable (raw : List CpiRaw) : List YPVal :=
  (dedupByKey id ((cpiProvRows raw).map
      (fun r => (r.year, normalizeProvince r.geo)))).map
    (fun k => YPVal.mk k.1 k.2 (gmean (cpiGroupVals raw k)))

/-- The rows feeding `cpi_canada_avg`: all-items, raw `GEO == "Canada"`
(unnormalized, line 106), Year between 1975 and 1977. -/
def canadaRows (raw : List CpiRaw) : List CpiRaw :=
  (raw.filter allItems).filter
    (fun r => r.geo = "Canada" && decide (1975 ≤ r.year)
      && decide (r.year ≤ 1977))

/-- The national all-items average for year `y` (the `VALUE` mean of the
Canada rows of that year). -/
def canadaAvgAt (raw : List CpiRaw) (y : Int) : F :=
  gmean (((canadaRows raw).filter (fun r => decide (r.year = y))).map
    (fun r => r.value))

/-- Source: `cpi_canada_avg` before the 1974 clone: groupby Year mean. -/
def canadaAvg (raw : List CpiRaw) : List (Int × F) :=
  (dedupByKey id ((canadaRows raw).map (fun r => r.year))).map
    (fun y => (y, canadaAvgAt raw y))

/-- Source: `cpi_canada_avg` after prepending the 1974 clone of the 1975 row
(lines 109-111). -/
def canadaAvgExt (raw : List CpiRaw) : List (Int × F) :=
  ((canadaAvg raw).filter (fun r => decide (r.1 = 1975))).map
      (fun r => ((1974 : Int), r.2))
    ++ canadaAvg raw

/-- Source: `cpi_backfilled`: every admitted province receives every national
average row (line 112; the Python set iteration order does not matter,
keys are distinct). -/
def cpiBackfilled (raw : List CpiRaw) : List YPVal :=
  includedGeoList.flatMap
    (fun p => (canadaAvgExt raw).map (fun r => YPVal.mk r.1 p r.2))

/-- Source: `cpi_final` (line 113): provincial rows then backfilled rows. -/
def cpiFinal (raw : List CpiRaw) : List YPVal :=
  cpiProvTable raw ++ cpiBackfilled raw

/-- Does the CPI table hold a non-null index value at (y, p)? -/
def cpiHasValue (t : List YPVal) (y : Int) (p : String) : Bool :=
  t.any (fun r => r.year = y && r.prov = p && !r.v.isNan)

/- ### Deflation (used at lines 184, 239, 263, 271, 320) -/

/-- The pipeline's single deflation operation:
`real = nominal / (CPI_index / 100.0)`. -/
def deflate (nominal cpi : F) : F :=
  nominal.div (cpi.div (F.num 100))

/- ### GDP by sector: the Vintage Splicer (source lines 143-199) -/

/-- A raw GDP-by-industry observation (36100380/36100381) after year
parsing: `REF_DATE` year, raw `GEO`, `Prices`, `Industry`, `VALUE`,
`SCALAR_FACTOR`. -/
structure GdpRaw where
  year : Int
  geo : String
  prices : String
  industry : String
  value : F
  scalar : String
deriving DecidableEq

/-- Source: `apply_geo_filter` on a GDP table: keep rows whose normalized
geography is admitted. -/
def geoRowsG (l : List GdpRaw) : List GdpRaw :=
  l.filter (fun r => decide (normalizeProvince r.geo ∈ includedGeoList))

/-- The `SECTORS` map. -/
def sectorIndustry : String → String
  | "OIL_GAS" => "Mining, quarrying and oil well industries"
  | "REFINING" => "Refined petroleum and coal products industries"
  | "AGRIC" => "Agricultural and related services industries"
  | "FISH" => "Fishing and trapping industries"
  | "MANUFACT" => "Manufacturing industries"
  | "EDU" => "Educational service industries"
  | _ => ""

def sectorLabels : List String :=
  ["OIL_GAS", "REFINING", "AGRIC", "FISH", "MANUFACT", "EDU"]

/-- Source: `extract_nominal_block`: current-dollar rows of one industry in
[y0, y1], projected to (Year, Province, VALUE_DOLLARS). -/
def extractNominalBlock (df : List GdpRaw) (ind : String) (y0 y1 : Int) :
    List YPVal :=
  ((geoRowsG df).filter
    (fun r => r.prices = "Current dollars (1971 to 1984)"
      && r.industry = ind && decide (y0 ≤ r.year)
      && decide (r.year ≤ y1))).map
    (fun r => YPVal.mk r.year (normalizeProvince r.geo)
      (dollarValue r.value r.scalar))

/-- Source: `extract_real_block`: 1986-constant-dollar rows of one industry in
[y0, y1]. -/
def extractRealBlock (df : List GdpRaw) (ind : String) (y0 y1 : Int) :
    List YPVal :=
  ((geoRowsG df).filter
    (fun r => r.prices = "1986 constant dollars"
      && r.industry = ind && decide (y0 ≤ r.year)
      && decide (r.year ≤ y1))).map
    (fun r => YPVal.mk r.year (normalizeProvince r.geo)
      (dollarValue r.value r.scalar))

/-- The deflated-current partition of `build_sector`: the 1975-1983
nominal block of the early vintage, merged with CPI and deflated. -/
def preSector (gdp80 : List GdpRaw) (cpi : List YPVal) (ind : String) :
    List YPVal :=
  (extractNominalBlock gdp80 ind 1975 1983).map
    (fun r => YPVal.mk r.year r.prov (deflate r.v (cpiAt cpi r.year r.prov)))

/-- The real partition of `build_sector`: the 1984-1995 constant-dollar
block of the later vintage, used unmodified. -/
def postSector (gdp90 : List GdpRaw) (ind : String) : List YPVal :=
  extractRealBlock gdp90 ind 1984 1995

/-- A row of `gdp_sectors` (Year, Province, Sector, GDP_Real). -/
structure SRow where
  year : Int
  prov : String
  sector : String
  gdpReal : F
deriving DecidableEq

/-- Source: `build_sector`: concatenates the deflated pre block and the real post
block and labels the sector. -/
def buildSector (gdp80 gdp90 : List GdpRaw) (cpi : List YPVal)
    (key label : String) : List SRow :=
  ((preSector gdp80 cpi (sectorIndustry key))
      ++ (postSector gdp90 (sectorIndustry key))).map
    (fun r => SRow.mk r.year r.prov label r.v)

/-- Source: `gdp_sectors`: the six `build_sector` calls concatenated. -/
def gdpSectors (gdp80 gdp90 : List GdpRaw) (cpi : List YPVal) : List SRow :=
  buildSector gdp80 gdp90 cpi "OIL_GAS" "OIL_GAS"
    ++ buildSector gdp80 gdp90 cpi "REFINING" "REFINING"
    ++ buildSector gdp80 gdp90 cpi "AGRIC" "AGRIC"
    ++ buildSector gdp80 gdp90 cpi "FISH" "FISH"
    ++ buildSector gdp80 gdp90 cpi "MANUFACT" "MANUFACT"
    ++ buildSector gdp80 gdp90 cpi "EDU" "EDU"

/-- The (Year, Province, Sector) keys of the deflated-current partition
(1975-1983) across all six sectors. -/
def spliceKeysPre (gdp80 : List GdpRaw) (cpi : List YPVal) :
    List (Int × String × String) :=
  sectorLabels.flatMap
    (fun lab => (preSector gdp80 cpi (sectorIndustry lab)).map
      (fun r => (r.year, r.prov, lab)))

/-- The (Year, Province, Sector) keys of the real partition (1984-1995)
across all six sectors. -/
def spliceKeysPost (gdp90 : List GdpRaw) :
    List (Int × String × String) :=
  sectorLabels.flatMap
    (fun lab => (postSector gdp90 (sectorIndustry lab)).map
      (fun r => (r.year, r.prov, lab)))

/- ### Total GDP (source lines 201-293) -/

/-- A raw total-GDP observation (36100324/36100221): year, raw `GEO`, the
concept column found by `_find_col` (income-based estimates), the
`Prices` column (meaningful when the table has one), `VALUE`,
`SCALAR_FACTOR`. -/
structure TotRaw where
  year : Int
  geo : String
  concept : String
  prices : String
  value : F
  scalar : String
deriving DecidableEq

def geoRowsT (l : List TotRaw) : List TotRaw :=
  l.filter (fun r => decide (normalizeProvince r.geo ∈ includedGeoList))

/-- Source: `_gdp_market_prices_mask`: the regex
`gross domestic product.*market prices`, case-insensitive `contains`. -/
def gdpMarketMask (s : String) : Bool :=
  hasSubThenL "gross domestic product".data "market prices".data
    (lowerStr s).data

/-- Source: `str.contains("constant|chained", case=False)`. -/
def isRealPrice (s : String) : Bool :=
  containsCI s "constant" || containsCI s "chained"

/-- Source: `str.contains("current", case=False)`. -/
def isCurrPrice (s : String) : Bool := containsCI s "current"

/-- The `sl` slice of `build_total_gdp_81_95`: geo-filtered rows with Year
in [1981, 1995] passing the market-prices concept mask. -/
def slice8195 (df : List TotRaw) : List TotRaw :=
  (geoRowsT df).filter
    (fun r => decide (1981 ≤ r.year) && decide (r.year ≤ 1995)
      && gdpMarketMask r.concept)

/-- Source: `part_real`: constant/chained rows, kept as-is (labeled
`GDP_Real_Total`). -/
def partReal (df : List TotRaw) : List YPVal :=
  ((slice8195 df).filter (fun r => isRealPrice r.prices)).map
    (fun r => YPVal.mk r.year (normalizeProvince r.geo)
      (dollarValue r.value r.scalar))

/-- Source: `part_curr`: current-dollar rows, merged with CPI and deflated. -/
def partCurr (df : List TotRaw) (cpi : List YPVal) : List YPVal :=
  ((slice8195 df).filter (fun r => isCurrPrice r.prices)).map
    (fun r => YPVal.mk r.year (normalizeProvince r.geo)
      (deflate (dollarValue r.value r.scalar)
        (cpiAt cpi r.year (normalizeProvince r.geo))))

/-- The no-basis-column branch: the whole slice treated as current
dollars and deflated. -/
def partCurrAll (df : List TotRaw) (cpi : List YPVal) : List YPVal :=
  (slice8195 df).map
    (fun r => YPVal.mk r.year (normalizeProvince r.geo)
      (deflate (dollarValue r.value r.scalar)
        (cpiAt cpi r.year (normalizeProvince r.geo))))

/-- String comparison by code point, as numpy compares Python strings
when lex-sorting a string column. -/
def strLtB : List Char → List Char → Bool
  | [], [] => false
  | [], _ :: _ => true
  | _ :: _, [] => false
  | a :: as, b :: bs => decide (a < b) || (a = b && strLtB as bs)

/-- The (Year, Province) sort comparison of
`sort_values(["Year","Province"])` (non-strict: equal keys compare
true, so the insertion sort below is stable, matching numpy's stable
lexsort for multi-column sorts). -/
def leKeyYP (a b : Int × String) : Bool :=
  if a = b then true
  else if a.1 < b.1 then true
  else if b.1 < a.1 then false
  else strLtB a.2.data b.2.data

/-- Stable insertion of a row into a (Year, Province)-sorted list: the row
goes in front of the first row its key compares `leKeyYP` to. -/
def insYP (x : YPVal) : List YPVal → List YPVal
  | [] => [x]
  | y :: ys =>
      if leKeyYP (keyYP x) (keyYP y) then x :: y :: ys
      else y :: insYP x ys

/-- Source: `sort_values(["Year","Province"])`: a stable sort on the key (pandas
uses numpy's stable lexsort when sorting by several columns). -/
def sortYP : List YPVal → List YPVal
  | [] => []
  | x :: xs => insYP x (sortYP xs)

/-- Source: `build_total_gdp_81_95`: partition by price basis (when the table has
a basis column), concatenate real-then-current, stable-sort by
(Year, Province) and keep the first row of each key.  (The source's
`if not part_curr.empty` guard only skips computing a column of an empty
frame and does not change the rows.) -/
def buildTotalGdp8195 (hasPrices : Bool) (df : List TotRaw)
    (cpi : List YPVal) : List YPVal :=
  let out := if hasPrices then partReal df ++ partCurr df cpi
             else partCurrAll df cpi
  dedupByKey keyYP (sortYP out)

/-- Source: `build_total_gdp_75_80` (36100324, no basis column): the 1975-1980
market-prices slice deflated with provincial CPI. -/
def buildTotalGdp7580 (df : List TotRaw) (cpi : List YPVal) : List YPVal :=
  (((geoRowsT df).filter
    (fun r => decide (1975 ≤ r.year) && decide (r.year ≤ 1980)
      && gdpMarketMask r.concept))).map
    (fun r => YPVal.mk r.year (normalizeProvince r.geo)
      (deflate (dollarValue r.value r.scalar)
        (cpiAt cpi r.year (normalizeProvince r.geo))))

/- ### Compensation and the AG_FISH allocation (source lines 295-393) -/

/-- A raw compensation observation (36100298): year, raw `GEO`, the raw
`Sector` classification label, `VALUE`, `SCALAR_FACTOR`. -/
structure CompRaw where
  year : Int
  geo : String
  sector : String
  value : F
  scalar : String
deriving DecidableEq

/-- Source: `COMP_INDMAP`. -/
def compIndMap : List (String × String) :=
  [("Labour income", "TOTAL"),
   ("Agriculture, fishing and trapping", "AG_FISH"),
   ("Mining, quarrying and oil wells", "OIL_GAS"),
   ("Refined petroleum and coal products industries", "REFINING"),
   ("Manufacturing", "MANUFACT"),
   ("Education and related services", "EDU")]

/-- A monthly compensation row after geo filtering, sector mapping and
`add_dollar_value` (`Comp_Nominal = VALUE_DOLLARS`). -/
structure CompMonthly where
  year : Int
  prov : String
  sector : String
  compNominal : F
deriving DecidableEq

/-- Lines 296-312: geo filter, keep the sectors of `COMP_INDMAP`, map
labels, take `VALUE_DOLLARS` as `Comp_Nominal`. -/
def compMonthlyRows (raw : List CompRaw) : List CompMonthly :=
  let geoRows := raw.filter
    (fun r => decide (normalizeProvince r.geo ∈ includedGeoList))
  let kept := geoRows.filter
    (fun r => (compIndMap.lookup r.sector).isSome)
  kept.map
    (fun r => CompMonthly.mk r.year (normalizeProvince r.geo)
      ((compIndMap.lookup r.sector).getD "")
      (dollarValue r.value r.scalar))

/-- A row of `comp_annual`: annual nominal sum and its deflated value. -/
structure CARow where
  year : Int
  prov : String
  sector : String
  compReal : F
deriving DecidableEq

/-- Source: `comp_annual` (lines 314-320): monthly nominal values summed per
(Year, Province, Sector), then deflated once with the CPI table. -/
def compAnnual (raw : List CompRaw) (cpi : List YPVal) : List CARow :=
  let rows := compMonthlyRows raw
  (dedupByKey id (rows.map (fun r => (r.year, r.prov, r.sector)))).map
    (fun k => CARow.mk k.1 k.2.1 k.2.2
      (deflate
        (gsum ((rows.filter
          (fun r => decide ((r.year, r.prov, r.sector) = k))).map
            (fun r => r.compNominal)))
        (cpiAt cpi k.1 k.2.1)))

/-- Source: `comp_agfish` (lines 339-343): the AG_FISH rows of `comp_annual`,
projected to (Year, Province, Comp_AF_Real). -/
def compAgFish (raw : List CompRaw) (cpi : List YPVal) : List YPVal :=
  ((compAnnual raw cpi).filter (fun r => r.sector = "AG_FISH")).map
    (fun r => YPVal.mk r.year r.prov r.compReal)

/-- The `GDP_Real` values of one sector at one key among the AGRIC/FISH
rows of `gdp_sectors` (the pivot input, line 346-349). -/
def sectVals (g : List SRow) (k : Int × String) (sec : String) : List F :=
  ((g.filter
      (fun r => (r.sector = "AGRIC" || r.sector = "FISH")
        && decide (r.year = k.1) && decide (r.prov = k.2)
        && r.sector = sec)).map (fun r => r.gdpReal))

/-- The pivot cell for AGRIC after `fillna(0.0)` (aggfunc "first" takes
the first non-NaN value; a missing or all-NaN cell becomes 0). -/
def wAg0 (g : List SRow) (k : Int × String) : F :=
  F.fillna 0 (firstNonNan (sectVals g k "AGRIC"))

/-- The pivot cell for FISH after `fillna(0.0)`. -/
def wFi0 (g : List SRow) (k : Int × String) : F :=
  F.fillna 0 (firstNonNan (sectVals g k "FISH"))

/-- Source: `w["sum"] = w["AGRIC"] + w["FISH"]`. -/
def wSumF (g : List SRow) (k : Int × String) : F :=
  (wAg0 g k).add (wFi0 g k)

/-- Does the weight table have a row for key `k` (some AGRIC/FISH row of
`gdp_sectors` at that key)?  When it does not, the left merge at line 366
leaves the weight columns NaN. -/
def hasWRow (g : List SRow) (k : Int × String) : Bool :=
  g.any (fun r => (r.sector = "AGRIC" || r.sector = "FISH")
    && decide (r.year = k.1) && decide (r.prov = k.2))

/-- Source: `w["w_ag"] = np.where(w["sum"] > 0, w["AGRIC"]/w["sum"], np.nan)`. -/
def wAgRaw (g : List SRow) (k : Int × String) : F :=
  if (wSumF g k).gtZero then (wAg0 g k).div (wSumF g k) else F.nan

/-- Source: `w["w_fi"] = np.where(w["sum"] > 0, w["FISH"]/w["sum"], np.nan)`. -/
def wFiRaw (g : List SRow) (k : Int × String) : F :=
  if (wSumF g k).gtZero then (wFi0 g k).div (wSumF g k) else F.nan

/-- The AGRIC weight actually used for a key: the merged weight with
`fillna(0.5)` (lines 366-367); a key with no weight row gets 0.5. -/
def wAg (g : List SRow) (k : Int × String) : F :=
  if hasWRow g k then F.fillna (1/2) (wAgRaw g k) else F.num (1/2)

/-- The FISH weight actually used for a key (line 368). -/
def wFi (g : List SRow) (k : Int × String) : F :=
  if hasWRow g k then F.fillna (1/2) (wFiRaw g k) else F.num (1/2)

/-- The allocated AGRIC compensation of a key:
`Comp_AF_Real * w_ag` (line 372). -/
def allocAgVal (g : List SRow) (k : Int × String) (af : F) : F :=
  af.mul (wAg g k)

/-- The allocated FISH compensation of a key:
`Comp_AF_Real * w_fi` (line 377). -/
def allocFiVal (g : List SRow) (k : Int × String) (af : F) : F :=
  af.mul (wFi g k)

/-- The per-key sum of the two allocated values (what the `chk` table
compares against the original AG_FISH compensation). -/
def allocSum (g : List SRow) (k : Int × String) (af : F) : F :=
  (allocAgVal g k af).add (allocFiVal g k af)

/- ### The join engine (source lines 473-535 and 551-561) -/

/-- SQL/pandas left join on a key: every left row is kept; a left row
with m matching right rows produces m output rows, and one row with no
right part when there is no match. -/
def leftJoin {α β κ : Type} [DecidableEq κ] (ka : α → κ) (kb : β → κ) :
    List α → List β → List (α × Option β)
  | [], _ => []
  | a :: as, r =>
      (match r.filter (fun b => decide (kb b = ka a)) with
       | [] => [(a, none)]
       | m :: ms => (m :: ms).map (fun b => (a, some b)))
        ++ leftJoin ka kb as r

/-- A row of `comp_sect` (Year, Province, Sector, Comp_Real_Sector). -/
structure CSRow where
  year : Int
  prov : String
  sector : String
  compReal : F
deriving DecidableEq

/-- A Year-keyed exogenous row (bank rate / WTI / coal / chemicals /
wheat). -/
structure YRow where
  year : Int
  v : F
deriving DecidableEq

/-- A row of `us_cad` (Year, USDCAD, log, dlog). -/
structure FxRow where
  year : Int
  usdcad : F
  logU : F
  dlogU : F
deriving DecidableEq

def keySRow (r : SRow) : Int × String × String := (r.year, r.prov, r.sector)

def keyCSRow (r : CSRow) : Int × String × String := (r.year, r.prov, r.sector)

/-- The sector-level join chain: the DuckDB query of lines 493-521 (left
joins from the `gdp_sectors` anchor, in query order) followed by the
FX-logs merge of line 524 (again a left merge on Year with `us_cad`).
Output rows are the nested join results; the anchor row of an output row
is its iterated first component. -/
def sectorPanel (s : List SRow) (cs : List CSRow) (t ct e p : List YPVal)
    (b w co ch wh : List YRow) (u : List FxRow) :=
  let j1 := leftJoin keySRow keyCSRow s cs
  let j2 := leftJoin (fun x => (x.1.year, x.1.prov)) keyYP j1 t
  let j3 := leftJoin (fun x => (x.1.1.year, x.1.1.prov)) keyYP j2 ct
  let j4 := leftJoin (fun x => (x.1.1.1.year, x.1.1.1.prov)) keyYP j3 e
  let j5 := leftJoin (fun x => (x.1.1.1.1.year, x.1.1.1.1.prov)) keyYP j4 p
  let j6 := leftJoin (fun x => x.1.1.1.1.1.year) YRow.year j5 b
  let j7 := leftJoin (fun x => x.1.1.1.1.1.1.year) YRow.year j6 w
  let j8 := leftJoin (fun x => x.1.1.1.1.1.1.1.year) YRow.year j7 co
  let j9 := leftJoin (fun x => x.1.1.1.1.1.1.1.1.year) YRow.year j8 ch
  let j10 := leftJoin (fun x => x.1.1.1.1.1.1.1.1.1.year) YRow.year j9 wh
  let j11 := leftJoin (fun x => x.1.1.1.1.1.1.1.1.1.1.year) FxRow.year j10 u
  leftJoin (fun x => x.1.1.1.1.1.1.1.1.1.1.1.year) FxRow.year j11 u

/- ### Province-level panel and end-of-run diagnostics
   (source lines 551-571 and 747-760) -/

/-- The province-level merge chain of lines 551-561: anchored on
`gdp_total`, left merges with `comp_total`, `lfs_agg`, `pop`, then the
six Year-keyed series. -/
def provJoin (t ct e p : List YPVal) (b w co ch wh : List YRow)
    (u : List FxRow) :=
  let j1 := leftJoin keyYP keyYP t ct
  let j2 := leftJoin (fun x => keyYP x.1) keyYP j1 e
  let j3 := leftJoin (fun x => keyYP x.1.1) keyYP j2 p
  let j4 := leftJoin (fun x => x.1.1.1.year) YRow.year j3 b
  let j5 := leftJoin (fun x => x.1.1.1.1.year) YRow.year j4 w
  let j6 := leftJoin (fun x => x.1.1.1.1.1.year) YRow.year j5 co
  let j7 := leftJoin (fun x => x.1.1.1.1.1.1.year) YRow.year j6 ch
  let j8 := leftJoin (fun x => x.1.1.1.1.1.1.1.year) YRow.year j7 wh
  leftJoin (fun x => x.1.1.1.1.1.1.1.1.year) FxRow.year j8 u

/-- A `prov_df` row restricted to the columns the final diagnostics and
assertions read (the Year-keyed series columns and the derived event/log
columns are not consulted by lines 747-760). -/
structure ProvRow where
  year : Int
  prov : String
  gdpTot : F
  compTot : F
  emp : F
  popu : F
deriving DecidableEq

/-- Missing-match columns read as NaN. -/
def optV : Option YPVal → F
  | some r => r.v
  | none => F.nan

/-- Source: `prov_df` after the domain lock of lines 564-566 (Year in [1975,1995]
and admitted Province). -/
def provRows (t ct e p : List YPVal) (b w co ch wh : List YRow)
    (u : List FxRow) : List ProvRow :=
  ((provJoin t ct e p b w co ch wh u).map
    (fun z =>
      let anchor := z.1.1.1.1.1.1.1.1.1
      ProvRow.mk anchor.year anchor.prov anchor.v
        (optV z.1.1.1.1.1.1.1.1.2)
        (optV z.1.1.1.1.1.1.1.2)
        (optV z.1.1.1.1.1.1.2))).filter
    (fun r => decide (1975 ≤ r.year) && decide (r.year ≤ 1995)
      && decide (r.prov ∈ includedGeoList))

/-- Source: `GDP_pc_real_1986 = GDP_Real_Total / Population` (line 569). -/
def gdpPc (r : ProvRow) : F := r.gdpTot.div r.popu

/-- Source: `Wpw_All`, total compensation over employment with zero employment replaced by NaN
(line 570). -/
def wpw (r : ProvRow) : F :=
  r.compTot.div (if r.emp = F.num 0 then F.nan else r.emp)

/-- The two assertions of lines 759-760: `GDP_pc_real_1986.notna().all()`
and `Wpw_All.gt(0).all()`.  The run halts (AssertionError) exactly when
this is false. -/
def assertsPass (rows : List ProvRow) : Bool :=
  rows.all (fun r => !(gdpPc r).isNan) && rows.all (fun r => (wpw r).gtZero)

/-- The full Year×Province template grid of lines 747-749
(1975-1995 × the admitted provinces; `sorted(included_geo)` is the
alphabetical order below). -/
def gridKeys : List (Int × String) :=
  ((List.range 21).map (fun i => (1975 + (i : Int)))).flatMap
    (fun y => includedGeoList.map (fun p => (y, p)))

/-- The `_miss` diagnostic of lines 750-753: grid keys whose left-merge
with `prov_df` leaves `GDP_Real_Total` or `Population` null — keys with
no `prov_df` row at all, or keys one of whose rows has a NaN in either
column.  These are computed and printed (lines 754-756), not asserted. -/
def missKeys (rows : List ProvRow) : List (Int × String) :=
  gridKeys.filter
    (fun k =>
      let ms := rows.filter
        (fun r => decide (r.year = k.1) && decide (r.prov = k.2))
      ms.isEmpty || ms.any (fun r => r.gdpTot.isNan || r.popu.isNan))

/- ### Employment scaling (source lines 395-407) -/

/-- A row of the filtered LFS employment table (after the
characteristic/gender/age filters of lines 399-403): year, province,
`SCALAR_FACTOR`, raw `VALUE`. -/
structure LfsRow where
  year : Int
  prov : String
  scalar : String
  value : F
deriving DecidableEq

/-- Lines 404-407: the scale decision reads `SCALAR_FACTOR` of the FIRST
row only (`iloc[0]`); if it lowercases to "thousands" every `VALUE` in
the table is multiplied by 1000, otherwise no value is scaled.  Each row
is paired with its resulting `Employment` value.  (On an empty table the
source raises an IndexError before producing any rows.) -/
def lfsEmployment : List LfsRow → List (LfsRow × F)
  | [] => []
  | r :: rest =>
      if lowerStr r.scalar = "thousands" then
        (r :: rest).map (fun x => (x, x.value.mul (F.num 1000)))
      else
        (r :: rest).map (fun x => (x, x.value))

/- ### Event-study annotator (source lines 579-608) -/

/-- An event definition: name, event year, treated provinces, half-window
width. -/
structure EventDef where
  name : String
  year : Int
  treated : List String
  window : Nat
deriving DecidableEq

/-- The four `EVENTS`. -/
def EVENTS : List EventDef :=
  [⟨"NEP", 1980, ["Alberta"], 6⟩,
   ⟨"CROW", 1984, ["Alberta", "Saskatchewan", "Manitoba"], 6⟩,
   ⟨"CUSFTA", 1989, ["Ontario", "Quebec"], 6⟩,
   ⟨"COD", 1992, ["Newfoundland And Labrador"], 4⟩]

/-- Source: the treated flag column: province membership, as 0/1. -/
def treatedFlag (e : EventDef) (prov : String) : Nat :=
  if prov ∈ e.treated then 1 else 0

/-- Source: the post flag column: Year ≥ event year and treated, as 0/1. -/
def postFlag (e : EventDef) (prov : String) (y : Int) : Nat :=
  if e.year ≤ y ∧ prov ∈ e.treated then 1 else 0

/-- Source: the relative-time column, Year minus event year when treated, else NaN. -/
def relOf (e : EventDef) (prov : String) (y : Int) : F :=
  if prov ∈ e.treated then F.num ((y - e.year : Int) : ℚ) else F.nan

/-- The offsets that get an indicator column: `range(-window, window+1)`
with -1 skipped (line 596-598). -/
def binOffsets (w : Nat) : List Int :=
  ((List.range (2 * w + 1)).map
    (fun i => Int.ofNat i - Int.ofNat w)).filter
    (fun k => decide (k ≠ -1))

/-- The indicator column for offset k:
`(df[rel] == k).astype(int)` (line 600; NaN compares unequal, so
untreated rows are 0). -/
def binInd (e : EventDef) (prov : String) (y : Int) (k : Int) : Nat :=
  if (relOf e prov y).feq (F.num (k : ℚ)) then 1 else 0

/- ### Concrete datasets used by witnesses and counterexamples -/

/-- A weight-table input with a FISH row but no AGRIC row at the key. -/
def gC3 : List SRow := [⟨1982, "Manitoba", "FISH", F.num 200⟩]

/-- A raw CPI dataset holding only national all-items observations for
1975-1977 (a dataset with no provincial CPI coverage at all). -/
def rawC8 : List CpiRaw :=
  [⟨1975, "Canada", "All-items", F.num 30⟩,
   ⟨1976, "Canada", "All-items", F.num 32⟩,
   ⟨1977, "Canada", "All-items", F.num 34⟩]

/-- A fully covered raw CPI dataset: an all-items value of 50 for every
admitted province for each of 1978-1995, plus Canada all-items rows for
1975-1977. -/
def rawC8W : List CpiRaw :=
  (List.range 18).flatMap
    (fun i => includedGeoList.map
      (fun p => CpiRaw.mk (1978 + Int.ofNat i) p "all-items" (F.num 50)))
    ++ [⟨1975, "Canada", "All-items", F.num 30⟩,
        ⟨1976, "Canada", "All-items", F.num 32⟩,
        ⟨1977, "Canada", "All-items", F.num 34⟩]

/-- A later-vintage GDP-by-industry dataset whose AGRIC `VALUE` parses to
infinity (pandas `read_csv`/`to_numeric` parse the string "inf" to
float inf) and whose FISH value is finite. -/
def gdp90C5 : List GdpRaw :=
  [⟨1984, "Manitoba", "1986 constant dollars",
    "Agricultural and related services industries", F.inf, "units"⟩,
   ⟨1984, "Manitoba", "1986 constant dollars",
    "Fishing and trapping industries", F.num 200, "units"⟩]

def cpiC5 : List YPVal := [⟨1984, "Manitoba", F.num 100⟩]

/-- The sector GDP table the pipeline builds from `gdp90C5`. -/
def gC5 : List SRow := gdpSectors [] gdp90C5 cpiC5

/-- One AG_FISH compensation observation of 900 at the same key. -/
def compRawC5 : List CompRaw :=
  [⟨1984, "Manitoba", "Agriculture, fishing and trapping",
    F.num 900, "units"⟩]

/-- A 1981-1995 total-GDP table holding both a constant-dollar and a
current-dollar row for the same (Year, Province) key. -/
def dfC2 : List TotRaw :=
  [⟨1985, "Alberta", "Gross domestic product at market prices",
    "Constant dollars", F.num 5, "units"⟩,
   ⟨1985, "Alberta", "Gross domestic product at market prices",
    "Current dollars", F.num 9, "units"⟩]

def cpiC2 : List YPVal := [⟨1985, "Alberta", F.num 100⟩]

/-- A totals table with one key, whose Population table is empty: the key
(1975, Alberta) is present in `gdp_total` but has no Population match. -/
def tC1 : List YPVal := [⟨1975, "Alberta", F.num 100⟩]

def ctC1 : List YPVal := [⟨1975, "Alberta", F.num 5⟩]

def eC1 : List YPVal := [⟨1975, "Alberta", F.num 10⟩]

/-- The province-level rows of that dataset (`pop` and all Year-keyed
series empty). -/
def provC1 : List ProvRow := provRows tC1 ctC1 eC1 [] [] [] [] [] [] []

/-- An early-vintage GDP table with one 1980 nominal OIL_GAS row. -/
def gdp80C7 : List GdpRaw :=
  [⟨1980, "Alberta", "Current dollars (1971 to 1984)",
    "Mining, quarrying and oil well industries", F.num 10, "units"⟩]

/-- A later-vintage GDP table with one 1985 constant-dollar OIL_GAS
row. -/
def gdp90C7 : List GdpRaw :=
  [⟨1985, "Alberta", "1986 constant dollars",
    "Mining, quarrying and oil well industries", F.num 11, "units"⟩]

def cpiC7 : List YPVal := [⟨1980, "Alberta", F.num 100⟩]

/-- A two-row sector anchor for the join witness. -/
def sC6 : List SRow :=
  [⟨1980, "Alberta", "OIL_GAS", F.num 1⟩,
   ⟨1980, "Alberta", "FISH", F.num 2⟩]

def csC6 : List CSRow := [⟨1980, "Alberta", "OIL_GAS", F.num 3⟩]

def tC6 : List YPVal := [⟨1980, "Alberta", F.num 4⟩]

def uC6 : List FxRow := [⟨1980, F.num 1, F.num 0, F.nan⟩]

/-- A filtered LFS table whose first row is tagged "Thousands" and whose
second row carries a different per-row tag. -/
def lfsRowA : LfsRow := ⟨1980, "Alberta", "Thousands", F.num 5⟩

def lfsRowB : LfsRow := ⟨1980, "Ontario", "units", F.num 7⟩

/-!
## Theorems

Helper lemmas first, then one theorem per claim (with its witness or
counterexample where required).
-/

lemma div_nan (x : F) : F.div x F.nan = F.nan := by
  cases x <;> rfl

lemma nan_div (x : F) : F.div F.nan x = F.nan := by
  cases x <;> rfl

/-- Claim C4 (corrected): the deflation operation at a zero CPI index
does not produce a missing value — for the nonzero nominal 50 it
produces +infinity, which pandas does not treat as missing.  This
refutes "the real value is a missing value whenever CPI_index is null
or zero". -/
theorem C4_counterexample :
    deflate (F.num 50) (F.num 0) = F.inf ∧ (F.inf).isNan = false := by
  constructor
  · have h100 : (100 : ℚ) ≠ 0 := by norm_num
    have h50 : (0 : ℚ) < 50 := by norm_num
    simp [deflate, F.div, h100, h50, zero_div]
  · rfl

/-- Claim C4 (amended): real equals nominal/(CPI_index/100) when both
inputs are finite and CPI_index is nonzero; a null CPI or null nominal
yields a missing value; but a ZERO CPI yields a signed infinity for a
nonzero nominal (NaN only when the nominal is also zero).  Evaluation is
total (never an error). -/
theorem C4_amended_thm (a q : ℚ) :
    (q ≠ 0 → deflate (F.num a) (F.num q) = F.num (a / (q / 100))) ∧
    (∀ x : F, deflate x F.nan = F.nan) ∧
    (deflate F.nan (F.num q) = F.nan) ∧
    (a ≠ 0 → deflate (F.num a) (F.num 0) =
      (if 0 < a then F.inf else F.ninf)) ∧
    (deflate (F.num 0) (F.num 0) = F.nan) := by
  refine ⟨?_, ?_, ?_, ?_, ?_⟩
  · intro hq
    have h100 : (100 : ℚ) ≠ 0 := by norm_num
    have hq100 : q / 100 ≠ 0 := div_ne_zero hq h100
    simp [deflate, F.div, h100, hq100]
  · intro x
    simpa [deflate] using div_nan x
  · exact nan_div _
  · intro ha
    have h100 : (100 : ℚ) ≠ 0 := by norm_num
    simp [deflate, F.div, h100, ha]
  · have h100 : (100 : ℚ) ≠ 0 := by norm_num
    simp [deflate, F.div, h100, zero_div]

/-- Witness for C4: a concrete deflation, 50 at CPI 200 gives 25. -/
theorem C4_witness : deflate (F.num 50) (F.num 200) = F.num 25 := by
  have h := (C4_amended_thm 50 200).1 (by norm_num)
  norm_num at h
  exact h

/-- Claim C10: the employment scale decision is taken solely from the
first row's scale tag; every row's value is scaled by 1000 exactly when
that one tag lowercases to "thousands", regardless of the row's own
tag. -/
theorem C10_thm (r : LfsRow) (rest : List LfsRow) (x : LfsRow) (v : F)
    (hx : (x, v) ∈ lfsEmployment (r :: rest)) :
    v = (if lowerStr r.scalar = "thousands"
         then x.value.mul (F.num 1000) else x.value) := by
  simp only [lfsEmployment] at hx
  by_cases h : lowerStr r.scalar = "thousands"
  · rw [if_pos h] at hx
    rw [if_pos h]
    obtain ⟨a, _, heq⟩ := List.mem_map.mp hx
    obtain ⟨rfl, rfl⟩ := Prod.mk.injEq .. |>.mp heq
    rfl
  · rw [if_neg h] at hx
    rw [if_neg h]
    obtain ⟨a, _, heq⟩ := List.mem_map.mp hx
    obtain ⟨rfl, rfl⟩ := Prod.mk.injEq .. |>.mp heq
    rfl

/-- Witness for C10: with first-row tag "Thousands", the second row is
scaled by 1000 even though its own tag is "units". -/
theorem C10_witness :
    F.num 7000 = (if lowerStr lfsRowA.scalar = "thousands"
      then (lfsRowB.value).mul (F.num 1000) else lfsRowB.value) :=
  C10_thm lfsRowA [lfsRowB] lfsRowB (F.num 7000)
    (by
      have hs : lowerStr lfsRowA.scalar = "thousands" := rfl
      simp only [lfsEmployment, if_pos hs, List.map]
      norm_num [List.mem_cons, lfsRowA, lfsRowB, F.mul])

lemma feq_num_iff (x : F) (q : ℚ) : (x.feq (F.num q) = true) ↔ x = F.num q := by
  cases x <;> simp [F.feq]

lemma mem_binOffsets (w : Nat) (k : Int) :
    k ∈ binOffsets w ↔ (-(w : Int) ≤ k ∧ k ≤ (w : Int) ∧ k ≠ -1) := by
  constructor
  · intro h
    obtain ⟨h1, hne⟩ := List.mem_filter.mp h
    obtain ⟨i, hi, hk⟩ := List.mem_map.mp h1
    rw [List.mem_range] at hi
    subst hk
    have hne2 : Int.ofNat i - Int.ofNat w ≠ -1 := by simpa using hne
    simp only [Int.ofNat_eq_natCast] at hne2 ⊢
    exact ⟨by omega, by omega, hne2⟩
  · rintro ⟨h1, h2, hne⟩
    apply List.mem_filter.mpr
    refine ⟨List.mem_map.mpr ⟨(k + (w : Int)).toNat,
      List.mem_range.mpr (by omega), ?_⟩, by simpa using hne⟩
    simp only [Int.ofNat_eq_natCast]
    omega

lemma binInd_eq_one_iff (e : EventDef) (prov : String) (y k : Int) :
    binInd e prov y k = 1 ↔ relOf e prov y = F.num (k : ℚ) := by
  cases hfe : (relOf e prov y).feq (F.num (k : ℚ)) with
  | true => simp [binInd, hfe, (feq_num_iff _ _).mp hfe, F.feq]
  | false =>
      have hne : relOf e prov y ≠ F.num (k : ℚ) := by
        intro hr
        rw [(feq_num_iff _ _).mpr hr] at hfe
        exact Bool.noConfusion hfe
      simp [binInd, hfe, hne]

/-- Claim C9: for each of the four events, the annotator creates exactly
2×window indicator columns — one per offset in [−w, w] except −1, which
has none — and on any row the indicators are mutually exclusive, an
indicator being 1 exactly when the row's relative time equals its
offset. -/
theorem C9_thm : ∀ e ∈ EVENTS,
    (binOffsets e.window).length = 2 * e.window ∧
    (∀ k : Int, k ∈ binOffsets e.window ↔
      (-(e.window : Int) ≤ k ∧ k ≤ (e.window : Int) ∧ k ≠ -1)) ∧
    (∀ prov : String, ∀ y k j : Int,
      binInd e prov y k = 1 → binInd e prov y j = 1 → k = j) ∧
    (∀ prov : String, ∀ y k : Int,
      binInd e prov y k = 1 ↔ relOf e prov y = F.num (k : ℚ)) := by
  intro e he
  have hexcl : ∀ prov : String, ∀ y k j : Int,
      binInd e prov y k = 1 → binInd e prov y j = 1 → k = j := by
    intro prov y k j hk hj
    have h1 := (binInd_eq_one_iff e prov y k).mp hk
    have h2 := (binInd_eq_one_iff e prov y j).mp hj
    have : F.num (k : ℚ) = F.num (j : ℚ) := h1 ▸ h2
    have hq : (k : ℚ) = (j : ℚ) := by injection this
    exact_mod_cast hq
  fin_cases he <;>
    exact ⟨by decide, fun k => mem_binOffsets _ k, hexcl,
      fun prov y k => binInd_eq_one_iff _ prov y k⟩

/-- Witness for C9: the NEP event yields 12 indicator columns, and the
1982 Alberta row has indicator 1 at offset +2. -/
theorem C9_witness :
    (binOffsets 6).length = 12 ∧
      binInd ⟨"NEP", 1980, ["Alberta"], 6⟩ "Alberta" 1982 2 = 1 := by
  have h := C9_thm ⟨"NEP", 1980, ["Alberta"], 6⟩ (by decide)
  exact ⟨h.1, (h.2.2.2 "Alberta" 1982 2).mpr (by norm_num [relOf])⟩

lemma year_bounds_extractNominalBlock {df : List GdpRaw} {ind : String}
    {y0 y1 : Int} {r : YPVal}
    (h : r ∈ extractNominalBlock df ind y0 y1) :
    y0 ≤ r.year ∧ r.year ≤ y1 := by
  obtain ⟨a, ha, rfl⟩ := List.mem_map.mp h
  obtain ⟨-, hp⟩ := List.mem_filter.mp ha
  simp only [Bool.and_eq_true, decide_eq_true_eq] at hp
  exact ⟨hp.1.2, hp.2⟩

lemma year_bounds_extractRealBlock {df : List GdpRaw} {ind : String}
    {y0 y1 : Int} {r : YPVal}
    (h : r ∈ extractRealBlock df ind y0 y1) :
    y0 ≤ r.year ∧ r.year ≤ y1 := by
  obtain ⟨a, ha, rfl⟩ := List.mem_map.mp h
  obtain ⟨-, hp⟩ := List.mem_filter.mp ha
  simp only [Bool.and_eq_true, decide_eq_true_eq] at hp
  exact ⟨hp.1.2, hp.2⟩

lemma year_le_spliceKeysPre {gdp80 : List GdpRaw} {cpi : List YPVal}
    {k : Int × String × String} (h : k ∈ spliceKeysPre gdp80 cpi) :
    k.1 ≤ 1983 := by
  obtain ⟨lab, -, hk⟩ := List.mem_flatMap.mp h
  obtain ⟨r, hr, rfl⟩ := List.mem_map.mp hk
  obtain ⟨r0, hr0, rfl⟩ := List.mem_map.mp hr
  exact (year_bounds_extractNominalBlock hr0).2

lemma year_ge_spliceKeysPost {gdp90 : List GdpRaw}
    {k : Int × String × String} (h : k ∈ spliceKeysPost gdp90) :
    1984 ≤ k.1 := by
  obtain ⟨lab, -, hk⟩ := List.mem_flatMap.mp h
  obtain ⟨r, hr, rfl⟩ := List.mem_map.mp hk
  exact (year_bounds_extractRealBlock hr).1

/-- Claim C7: in the spliced GDP-by-sector series, no (Year, Province,
Sector) key of the 1975-1983 deflated-current partition also occurs in
the 1984-1995 real partition: the two partitions cover disjoint year
ranges. -/
theorem C7_thm (gdp80 gdp90 : List GdpRaw) (cpi : List YPVal)
    (k : Int × String × String) (hpre : k ∈ spliceKeysPre gdp80 cpi) :
    k ∉ spliceKeysPost gdp90 := by
  intro hpost
  have h1 := year_le_spliceKeysPre hpre
  have h2 := year_ge_spliceKeysPost hpost
  omega

/-- Witness for C7: a concrete 1980 pre-partition key is absent from the
post partition of a table that does hold 1985 data. -/
theorem C7_witness :
    ((1980, "Alberta", "OIL_GAS") : Int × String × String)
      ∉ spliceKeysPost gdp90C7 :=
  C7_thm gdp80C7 gdp90C7 cpiC7 (1980, "Alberta", "OIL_GAS") (by decide)

lemma leKeyYP_refl (a : Int × String) : leKeyYP a a = true := by
  simp [leKeyYP]

lemma find?_insYP_pos (x : YPVal) (s : List YPVal) (k : Int × String)
    (hx : keyYP x = k) :
    (insYP x s).find? (fun r => decide (keyYP r = k)) = some x := by
  induction s with
  | nil => simp [insYP, List.find?, hx]
  | cons y ys ih =>
      by_cases hle : leKeyYP (keyYP x) (keyYP y) = true
      · simp only [insYP, if_pos hle]
        exact List.find?_cons_of_pos _ (by simpa using hx)
      · have hky : keyYP y ≠ k := by
          intro hcontra
          apply hle
          rw [hx, hcontra]
          exact leKeyYP_refl k
        simp only [insYP, if_neg hle]
        rw [List.find?_cons_of_neg _ (by simp [hky])]
        exact ih

lemma find?_insYP_neg (x : YPVal) (s : List YPVal) (k : Int × String)
    (hx : keyYP x ≠ k) :
    (insYP x s).find? (fun r => decide (keyYP r = k))
      = s.find? (fun r => decide (keyYP r = k)) := by
  induction s with
  | nil => simp [insYP, List.find?, hx]
  | cons y ys ih =>
      by_cases hle : leKeyYP (keyYP x) (keyYP y) = true
      · simp only [insYP, if_pos hle]
        exact List.find?_cons_of_neg _ (by simp [hx])
      · simp only [insYP, if_neg hle]
        by_cases hy : keyYP y = k
        · rw [List.find?_cons_of_pos _ (by simpa using hy),
            List.find?_cons_of_pos _ (by simpa using hy)]
        · rw [List.find?_cons_of_neg _ (by simp [hy]),
            List.find?_cons_of_neg _ (by simp [hy])]
          exact ih

/-- Stability of the (Year, Province) sort: the first row carrying a given
key in the sorted list is the first row carrying it in the input list. -/
lemma find?_sortYP (l : List YPVal) (k : Int × String) :
    (sortYP l).find? (fun r => decide (keyYP r = k))
      = l.find? (fun r => decide (keyYP r = k)) := by
  induction l with
  | nil => rfl
  | cons x xs ih =>
      by_cases hx : keyYP x = k
      · simp only [sortYP]
        rw [find?_insYP_pos x (sortYP xs) k hx]
        exact (List.find?_cons_of_pos _ (by simpa using hx)).symm
      · simp only [sortYP]
        rw [find?_insYP_neg x (sortYP xs) k hx, ih]
        exact (List.find?_cons_of_neg _ (by simp [hx])).symm

lemma mem_dedupByKey {α κ : Type} [DecidableEq κ] (key : α → κ)
    (l : List α) (a : α) (h : a ∈ dedupByKey key l) : a ∈ l := by
  induction l using dedupByKey.induct key with
  | case1 => simp [dedupByKey] at h
  | case2 b bs ih =>
      rw [dedupByKey] at h
      rcases List.mem_cons.mp h with h1 | h2
      · exact h1 ▸ List.mem_cons_self _ _
      · exact List.mem_cons_of_mem _ (List.mem_of_mem_filter (ih h2))

/-- Keep-first deduplication after the fact: filtering the deduplicated
list to one key leaves exactly the first input row of that key. -/
lemma filter_dedupByKey {α κ : Type} [DecidableEq κ] (key : α → κ)
    (l : List α) (k : κ) :
    (dedupByKey key l).filter (fun r => decide (key r = k))
      = (l.find? (fun r => decide (key r = k))).toList := by
  induction l using dedupByKey.induct key with
  | case1 => simp [dedupByKey]
  | case2 b bs ih =>
      rw [dedupByKey]
      by_cases hb : key b = k
      · rw [List.filter_cons_of_pos (by simpa using hb)]
        have hnone : (dedupByKey key
            (bs.filter (fun x => decide (key x ≠ key b)))).filter
              (fun r => decide (key r = k)) = [] := by
          apply List.filter_eq_nil_iff.mpr
          intro a ha
          have ha2 := mem_dedupByKey _ _ _ ha
          have hne := List.of_mem_filter ha2
          simp only [decide_eq_true_eq] at hne
          simp only [decide_eq_true_eq]
          rw [hb] at hne
          exact hne
        rw [hnone, List.find?_cons_of_pos _ (by simpa using hb)]
        rfl
      · rw [List.filter_cons_of_neg (by simpa using hb), ih]
        have hkeep : (bs.filter (fun x => decide (key x ≠ key b))).find?
            (fun r => decide (key r = k))
            = bs.find? (fun r => decide (key r = k)) := by
          clear ih
          induction bs with
          | nil => rfl
          | cons c cs ihc =>
              by_cases hc : key c = key b
              · rw [List.filter_cons_of_neg (by simpa using hc),
                  List.find?_cons_of_neg _ (by simp [hc, hb])]
                exact ihc
              · rw [List.filter_cons_of_pos (by simpa using hc)]
                by_cases hck : key c = k
                · rw [List.find?_cons_of_pos _ (by simpa using hck),
                    List.find?_cons_of_pos _ (by simpa using hck)]
                · rw [List.find?_cons_of_neg _ (by simp [hck]),
                    List.find?_cons_of_neg _ (by simp [hck])]
                  exact ihc
        rw [hkeep, List.find?_cons_of_neg _ (by simp [hb])]

lemma find?_append_of_some {α : Type} (p : α → Bool) (l₁ l₂ : List α)
    {a : α} (h : l₁.find? p = some a) : (l₁ ++ l₂).find? p = some a := by
  rw [List.find?_append, h]
  rfl

lemma exists_find?_of_mem {α : Type} (p : α → Bool) (l : List α)
    {a : α} (ha : a ∈ l) (hp : p a = true) :
    ∃ r, l.find? p = some r ∧ p r = true ∧ r ∈ l := by
  induction l with
  | nil => cases ha
  | cons x xs ih =>
      by_cases hx : p x = true
      · exact ⟨x, List.find?_cons_of_pos _ hx, hx, List.mem_cons_self _ _⟩
      · rcases List.mem_cons.mp ha with rfl | hmem
        · exact absurd hp hx
        · obtain ⟨r, h1, h2, h3⟩ := ih hmem
          refine ⟨r, ?_, h2, List.mem_cons_of_mem _ h3⟩
          rw [List.find?_cons_of_neg _ (by simp [hx])]
          exact h1

/-- Claim C2: in the 1981-1995 total-GDP vintage, when a (Year, Province)
key has both a real-basis (constant/chained) row and a deflated-current
row, the spliced output holds exactly the first real-basis row of that
key — the real row survives the keep-first deduplication after the
stable sort, and the deflated-current row is discarded. -/
theorem C2_thm (df : List TotRaw) (cpi : List YPVal) (k : Int × String)
    (hr : ∃ r ∈ partReal df, keyYP r = k)
    (hc : ∃ r ∈ partCurr df cpi, keyYP r = k) :
    ∃ r, (partReal df).find? (fun x => decide (keyYP x = k)) = some r ∧
      r ∈ partReal df ∧ keyYP r = k ∧
      (buildTotalGdp8195 true df cpi).filter
        (fun x => decide (keyYP x = k)) = [r] := by
  obtain ⟨r0, hmem, hkey⟩ := hr
  obtain ⟨r, hfind, hpr, hmemr⟩ :=
    exists_find?_of_mem (fun x => decide (keyYP x = k)) (partReal df) hmem
      (by simpa using hkey)
  refine ⟨r, hfind, hmemr, by simpa using hpr, ?_⟩
  have hout : buildTotalGdp8195 true df cpi
      = dedupByKey keyYP (sortYP (partReal df ++ partCurr df cpi)) := rfl
  rw [hout, filter_dedupByKey keyYP _ k, find?_sortYP,
    find?_append_of_some _ _ _ hfind]
  rfl

/-- Witness for C2: a concrete table with a constant-dollar row (value 5)
and a current-dollar row at the same key keeps exactly the real row. -/
theorem C2_witness :
    ∃ r, (partReal dfC2).find?
        (fun x => decide (keyYP x = (1985, "Alberta"))) = some r ∧
      r ∈ partReal dfC2 ∧ keyYP r = (1985, "Alberta") ∧
      (buildTotalGdp8195 true dfC2 cpiC2).filter
        (fun x => decide (keyYP x = (1985, "Alberta"))) = [r] := by
  apply C2_thm dfC2 cpiC2 (1985, "Alberta")
  · refine ⟨⟨1985, "Alberta", dollarValue (F.num 5) "units"⟩, ?_, rfl⟩
    unfold partReal
    apply List.mem_map.mpr
    refine ⟨⟨1985, "Alberta", "Gross domestic product at market prices",
      "Constant dollars", F.num 5, "units"⟩, by decide, rfl⟩
  · refine ⟨⟨1985, "Alberta",
      deflate (dollarValue (F.num 9) "units")
        (cpiAt cpiC2 1985 (normalizeProvince "Alberta"))⟩, ?_, rfl⟩
    unfold partCurr
    apply List.mem_map.mpr
    refine ⟨⟨1985, "Alberta", "Gross domestic product at market prices",
      "Current dollars", F.num 9, "units"⟩, by decide, rfl⟩

lemma filter_length_le_one_of_nodup {β κ : Type} [DecidableEq κ]
    (kb : β → κ) (r : List β) (h : (r.map kb).Nodup) (k : κ) :
    (r.filter (fun b => decide (kb b = k))).length ≤ 1 := by
  induction r with
  | nil => simp
  | cons b bs ih =>
      rw [List.map_cons, List.nodup_cons] at h
      by_cases hb : kb b = k
      · rw [List.filter_cons_of_pos (by simpa using hb)]
        have hrest : bs.filter (fun x => decide (kb x = k)) = [] := by
          apply List.filter_eq_nil_iff.mpr
          intro a ha
          simp only [decide_eq_true_eq]
          intro hek
          exact h.1 (by rw [hb, ← hek]; exact List.mem_map_of_mem kb ha)
        simp [hrest]
      · rw [List.filter_cons_of_neg (by simp [hb])]
        exact ih h.2

lemma leftJoin_length {α β κ : Type} [DecidableEq κ] (ka : α → κ)
    (kb : β → κ) (l : List α) (r : List β)
    (h : ∀ k, (r.filter (fun b => decide (kb b = k))).length ≤ 1) :
    (leftJoin ka kb l r).length = l.length := by
  induction l with
  | nil => rfl
  | cons a as ih =>
      have h1 := h (ka a)
      cases hf : r.filter (fun b => decide (kb b = ka a)) with
      | nil =>
          simp only [leftJoin, hf]
          simp [ih]
      | cons m ms =>
          rw [hf] at h1
          have hms : ms = [] := by
            rw [List.length_cons] at h1
            exact List.length_eq_zero.mp (by omega)
          subst hms
          simp only [leftJoin, hf]
          simp [ih]

/-- Claim C6: given every joined table deduplicated to its declared grain
(unique keys), the sector-level join chain produces exactly one output
row per anchor row: its row count equals the Sector GDP anchor's row
count (no anchor row dropped, none duplicated). -/
theorem C6_thm (s : List SRow) (cs : List CSRow) (t ct e p : List YPVal)
    (b w co ch wh : List YRow) (u : List FxRow)
    (hcs : (cs.map keyCSRow).Nodup) (ht : (t.map keyYP).Nodup)
    (hct : (ct.map keyYP).Nodup) (he : (e.map keyYP).Nodup)
    (hp : (p.map keyYP).Nodup) (hb : (b.map YRow.year).Nodup)
    (hw : (w.map YRow.year).Nodup) (hco : (co.map YRow.year).Nodup)
    (hch : (ch.map YRow.year).Nodup) (hwh : (wh.map YRow.year).Nodup)
    (hu : (u.map FxRow.year).Nodup) :
    (sectorPanel s cs t ct e p b w co ch wh u).length = s.length := by
  unfold sectorPanel
  rw [leftJoin_length _ _ _ u
        (fun k => filter_length_le_one_of_nodup _ u hu k),
      leftJoin_length _ _ _ u
        (fun k => filter_length_le_one_of_nodup _ u hu k),
      leftJoin_length _ _ _ wh
        (fun k => filter_length_le_one_of_nodup _ wh hwh k),
      leftJoin_length _ _ _ ch
        (fun k => filter_length_le_one_of_nodup _ ch hch k),
      leftJoin_length _ _ _ co
        (fun k => filter_length_le_one_of_nodup _ co hco k),
      leftJoin_length _ _ _ w
        (fun k => filter_length_le_one_of_nodup _ w hw k),
      leftJoin_length _ _ _ b
        (fun k => filter_length_le_one_of_nodup _ b hb k),
      leftJoin_length _ _ _ p
        (fun k => filter_length_le_one_of_nodup _ p hp k),
      leftJoin_length _ _ _ e
        (fun k => filter_length_le_one_of_nodup _ e he k),
      leftJoin_length _ _ _ ct
        (fun k => filter_length_le_one_of_nodup _ ct hct k),
      leftJoin_length _ _ _ t
        (fun k => filter_length_le_one_of_nodup _ t ht k),
      leftJoin_length _ _ _ cs
        (fun k => filter_length_le_one_of_nodup _ cs hcs k)]

/-- Witness for C6: a two-row anchor joined against deduplicated
singleton tables yields exactly two panel rows. -/
theorem C6_witness :
    (sectorPanel sC6 csC6 tC6 [] [] [] [] [] [] [] [] uC6).length
      = sC6.length :=
  C6_thm sC6 csC6 tC6 [] [] [] [] [] [] [] [] uC6
    (by decide) (by decide) (by decide) (by decide) (by decide)
    (by decide) (by decide) (by decide) (by decide) (by decide)
    (by decide)

lemma fillna_firstNonNan_num (l : List F)
    (h : ∀ x ∈ l, x ≠ F.inf ∧ x ≠ F.ninf) :
    ∃ q : ℚ, F.fillna 0 (firstNonNan l) = F.num q := by
  induction l with
  | nil => exact ⟨0, rfl⟩
  | cons x xs ih =>
      by_cases hx : x.isNan = true
      · rw [firstNonNan, if_pos hx]
        exact ih (fun y hy => h y (List.mem_cons_of_mem _ hy))
      · rw [firstNonNan, if_neg hx]
        cases x with
        | num q => exact ⟨q, rfl⟩
        | nan => simp [F.isNan] at hx
        | inf => exact absurd rfl (h _ (List.mem_cons_self _ _)).1
        | ninf => exact absurd rfl (h _ (List.mem_cons_self _ _)).2

lemma sectVals_finite (g : List SRow) (k : Int × String) (sec : String)
    (hfin : ∀ r ∈ g, r.year = k.1 → r.prov = k.2 →
      (r.sector = "AGRIC" ∨ r.sector = "FISH") →
      r.gdpReal ≠ F.inf ∧ r.gdpReal ≠ F.ninf) :
    ∀ x ∈ sectVals g k sec, x ≠ F.inf ∧ x ≠ F.ninf := by
  intro x hx
  obtain ⟨r, hr, rfl⟩ := List.mem_map.mp hx
  obtain ⟨hrg, hpred⟩ := List.mem_filter.mp hr
  simp only [Bool.and_eq_true, Bool.or_eq_true, decide_eq_true_eq] at hpred
  rcases hpred with ⟨⟨⟨hsect, hy⟩, hp⟩, -⟩
  exact hfin r hrg hy hp (by simpa using hsect)

lemma sectVals_nil_of_not_hasWRow (g : List SRow) (k : Int × String)
    (sec : String) (h : ¬ hasWRow g k = true) : sectVals g k sec = [] := by
  rw [sectVals, List.map_eq_nil_iff]
  apply List.filter_eq_nil_iff.mpr
  intro r hr
  simp only [Bool.and_eq_true, Bool.or_eq_true, decide_eq_true_eq]
  rintro ⟨⟨⟨hs, hy⟩, hp⟩, -⟩
  apply h
  rw [hasWRow]
  apply List.any_eq_true.mpr
  refine ⟨r, hr, ?_⟩
  simp only [Bool.and_eq_true, Bool.or_eq_true, decide_eq_true_eq]
  exact ⟨⟨hs, hy⟩, hp⟩

/-- The weight characterization underlying claims C3 and C5: with finite
(or missing) GDP inputs, the pivot cells are finite rationals a0, f0
(missing treated as 0), and the weights are a0/(a0+f0) and f0/(a0+f0)
when a0+f0 is positive, 0.5 each otherwise. -/
lemma weights_eq (g : List SRow) (k : Int × String)
    (hfin : ∀ r ∈ g, r.year = k.1 → r.prov = k.2 →
      (r.sector = "AGRIC" ∨ r.sector = "FISH") →
      r.gdpReal ≠ F.inf ∧ r.gdpReal ≠ F.ninf) :
    ∃ a0 f0 : ℚ, wAg0 g k = F.num a0 ∧ wFi0 g k = F.num f0 ∧
      ((0 < a0 + f0 ∧ wAg g k = F.num (a0 / (a0 + f0)) ∧
          wFi g k = F.num (f0 / (a0 + f0))) ∨
        (¬ 0 < a0 + f0 ∧ wAg g k = F.num (1/2) ∧
          wFi g k = F.num (1/2))) := by
  obtain ⟨a0, ha0⟩ := fillna_firstNonNan_num _
    (sectVals_finite g k "AGRIC" hfin)
  obtain ⟨f0, hf0⟩ := fillna_firstNonNan_num _
    (sectVals_finite g k "FISH" hfin)
  have hA : wAg0 g k = F.num a0 := ha0
  have hF : wFi0 g k = F.num f0 := hf0
  refine ⟨a0, f0, hA, hF, ?_⟩
  have hsum : wSumF g k = F.num (a0 + f0) := by
    rw [wSumF, hA, hF]
    rfl
  by_cases hpos : 0 < a0 + f0
  · left
    have hW : hasWRow g k = true := by
      by_contra hW
      have h1 := sectVals_nil_of_not_hasWRow g k "AGRIC" hW
      have h2 := sectVals_nil_of_not_hasWRow g k "FISH" hW
      have hA2 : wAg0 g k = F.num 0 := by rw [wAg0, h1]; rfl
      have hF2 : wFi0 g k = F.num 0 := by rw [wFi0, h2]; rfl
      rw [hA] at hA2
      rw [hF] at hF2
      have ha' : a0 = 0 := by injection hA2
      have hf' : f0 = 0 := by injection hF2
      rw [ha', hf'] at hpos
      exact absurd hpos (by norm_num)
    have hne : a0 + f0 ≠ 0 := ne_of_gt hpos
    have hgt : (wSumF g k).gtZero = true := by
      rw [hsum, F.gtZero, decide_eq_true_eq]
      exact hpos
    refine ⟨hpos, ?_, ?_⟩
    · rw [wAg, if_pos hW, wAgRaw, if_pos hgt, hA, hsum]
      simp only [F.div, if_neg hne]
      rfl
    · rw [wFi, if_pos hW, wFiRaw, if_pos hgt, hF, hsum]
      simp only [F.div, if_neg hne]
      rfl
  · right
    refine ⟨hpos, ?_, ?_⟩
    · rw [wAg]
      by_cases hW : hasWRow g k = true
      · rw [if_pos hW, wAgRaw, hsum]
        rw [if_neg (by simp [F.gtZero, hpos])]
        rfl
      · rw [if_neg hW]
    · rw [wFi]
      by_cases hW : hasWRow g k = true
      · rw [if_pos hW, wFiRaw, hsum]
        rw [if_neg (by simp [F.gtZero, hpos])]
        rfl
      · rw [if_neg hW]

/-- Claim C3 (corrected): a key with the FISH GDP present (200) and the
AGRIC GDP missing gets the weights (0, 1), not the claimed (0.5, 0.5):
the fillna(0)-then-divide logic only falls back to 0.5 when the filled
denominator is not positive. -/
theorem C3_counterexample :
    wAg gC3 (1982, "Manitoba") = F.num 0 ∧
    wFi gC3 (1982, "Manitoba") = F.num 1 ∧
    (firstNonNan (sectVals gC3 (1982, "Manitoba") "AGRIC")).isNan = true ∧
    (0 : ℚ) ≠ 1/2 := by
  obtain ⟨a0, f0, hA, hF, hcase⟩ :=
    weights_eq gC3 (1982, "Manitoba") (by decide)
  have hA0 : wAg0 gC3 (1982, "Manitoba") = F.num 0 := rfl
  have hF0 : wFi0 gC3 (1982, "Manitoba") = F.num 200 := rfl
  rw [hA0] at hA
  rw [hF0] at hF
  have ha : (0 : ℚ) = a0 := by injection hA
  have hf : (200 : ℚ) = f0 := by injection hF
  rcases hcase with ⟨hpos, h1, h2⟩ | ⟨hneg, -, -⟩
  · refine ⟨?_, ?_, rfl, by norm_num⟩
    · rw [h1, ← ha, ← hf]
      norm_num
    · rw [h2, ← ha, ← hf]
      norm_num
  · rw [← ha, ← hf] at hneg
    exact absurd (by norm_num) hneg

/-- Claim C3 (amended): the pivot cells are the first AGRIC/FISH GDP
values with missing treated as 0; when their sum is positive the weights
are a0/(a0+f0) and f0/(a0+f0) (so a missing AGRIC beside a positive FISH
gives (0,1)); the 0.5/0.5 fallback applies exactly when that sum is not
positive — in particular when both figures are missing or zero, or the
key has no weight row at all. -/
theorem C3_amended_thm (g : List SRow) (k : Int × String)
    (hfin : ∀ r ∈ g, r.year = k.1 → r.prov = k.2 →
      (r.sector = "AGRIC" ∨ r.sector = "FISH") →
      r.gdpReal ≠ F.inf ∧ r.gdpReal ≠ F.ninf) :
    ∃ a0 f0 : ℚ, wAg0 g k = F.num a0 ∧ wFi0 g k = F.num f0 ∧
      (0 < a0 + f0 → wAg g k = F.num (a0 / (a0 + f0)) ∧
        wFi g k = F.num (f0 / (a0 + f0))) ∧
      (¬ 0 < a0 + f0 → wAg g k = F.num (1/2) ∧
        wFi g k = F.num (1/2)) := by
  obtain ⟨a0, f0, ha0, hf0, hcase⟩ := weights_eq g k hfin
  rcases hcase with ⟨h, h1, h2⟩ | ⟨h, h1, h2⟩
  · exact ⟨a0, f0, ha0, hf0, fun _ => ⟨h1, h2⟩, fun hc => absurd h hc⟩
  · exact ⟨a0, f0, ha0, hf0, fun hc => absurd hc h, fun _ => ⟨h1, h2⟩⟩

/-- Witness for C3: the amended characterization applied at the
counterexample key. -/
theorem C3_witness :
    ∃ a0 f0 : ℚ, wAg0 gC3 (1982, "Manitoba") = F.num a0 ∧
      wFi0 gC3 (1982, "Manitoba") = F.num f0 ∧
      (0 < a0 + f0 → wAg gC3 (1982, "Manitoba") = F.num (a0 / (a0 + f0)) ∧
        wFi gC3 (1982, "Manitoba") = F.num (f0 / (a0 + f0))) ∧
      (¬ 0 < a0 + f0 → wAg gC3 (1982, "Manitoba") = F.num (1/2) ∧
        wFi gC3 (1982, "Manitoba") = F.num (1/2)) :=
  C3_amended_thm gC3 (1982, "Manitoba") (by decide)

/-- Claim C5 (amended): for a key whose AG_FISH real compensation is a
finite value q and whose AGRIC/FISH GDP weight inputs are finite or
missing, the allocated AGRIC plus FISH compensation is exactly q (exact
in the rational model; within float tolerance in the implementation). -/
theorem C5_amended_thm (g : List SRow) (k : Int × String) (q : ℚ)
    (hfin : ∀ r ∈ g, r.year = k.1 → r.prov = k.2 →
      (r.sector = "AGRIC" ∨ r.sector = "FISH") →
      r.gdpReal ≠ F.inf ∧ r.gdpReal ≠ F.ninf) :
    allocSum g k (F.num q) = F.num q := by
  obtain ⟨a0, f0, -, -, hcase⟩ := weights_eq g k hfin
  rcases hcase with ⟨hpos, h1, h2⟩ | ⟨-, h1, h2⟩
  · rw [allocSum, allocAgVal, allocFiVal, h1, h2]
    simp only [F.mul, F.add]
    have hne : a0 + f0 ≠ 0 := ne_of_gt hpos
    congr 1
    field_simp
    ring
  · rw [allocSum, allocAgVal, allocFiVal, h1, h2]
    simp only [F.mul, F.add]
    congr 1
    ring

/-- Claim C5 (corrected): allocation conservation fails when a GDP weight
input is infinite (reachable: pandas parses a raw "inf" entry to float
inf, and zero-CPI deflation also produces inf).  With AGRIC GDP = inf
and FISH GDP = 200 the weights become (0.5, 0) — inf/inf is NaN, filled
with 0.5, while 200/inf is 0 and is NOT filled — so an AG_FISH
compensation of 900 allocates to 450 ≠ 900. -/
theorem C5_counterexample :
    compAgFish compRawC5 cpiC5 = [⟨1984, "Manitoba", F.num 900⟩] ∧
    allocSum gC5 (1984, "Manitoba") (F.num 900) = F.num 450 ∧
    F.num 450 ≠ F.num 900 := by
  refine ⟨?_, ?_, by norm_num [F.num.injEq]⟩
  · have hrows : compMonthlyRows compRawC5
        = [⟨1984, "Manitoba", "AG_FISH",
            dollarValue (F.num 900) "units"⟩] := rfl
    have hu : lowerStr "units" = "units" := rfl
    simp only [compAgFish, compAnnual, hrows]
    norm_num [dedupByKey, gsum, deflate, cpiAt, dollarValue, scaleMult,
      hu, F.mul, F.add, F.div, F.isNan, cpiC5, List.find?]
  · have hwag : wAg gC5 (1984, "Manitoba") = F.num (1/2) := rfl
    have hwfi : wFi gC5 (1984, "Manitoba") = F.num 0 := rfl
    rw [allocSum, allocAgVal, allocFiVal, hwag, hwfi]
    simp only [F.mul, F.add]
    congr 1
    norm_num

/-- Witness for C5: the amended conservation at a concrete key whose
weights are (0, 1). -/
theorem C5_witness :
    allocSum gC3 (1982, "Manitoba") (F.num 900) = F.num 900 :=
  C5_amended_thm gC3 (1982, "Manitoba") 900 (by decide)

lemma mem_dedupByKey_id {κ : Type} [DecidableEq κ] (l : List κ) (k : κ) :
    k ∈ dedupByKey id l ↔ k ∈ l := by
  induction l using dedupByKey.induct (κ := κ) id with
  | case1 => rw [dedupByKey]
  | case2 b bs ih =>
      rw [dedupByKey]
      simp only [List.mem_cons]
      constructor
      · rintro (rfl | h2)
        · exact Or.inl rfl
        · exact Or.inr (List.mem_of_mem_filter (ih.mp h2))
      · rintro (rfl | h2)
        · exact Or.inl rfl
        · by_cases hbk : k = b
          · exact Or.inl hbk
          · refine Or.inr (ih.mpr (List.mem_filter.mpr ⟨h2, ?_⟩))
            simp [hbk]

lemma foldl_add_num (l : List F) (h : ∀ x ∈ l, ∃ q : ℚ, x = F.num q) :
    ∀ a : ℚ, ∃ s : ℚ, l.foldl F.add (F.num a) = F.num s := by
  induction l with
  | nil => exact fun a => ⟨a, rfl⟩
  | cons x xs ih =>
      intro a
      obtain ⟨q, rfl⟩ := h x (List.mem_cons_self _ _)
      rw [List.foldl_cons]
      exact ih (fun y hy => h y (List.mem_cons_of_mem _ hy)) (a + q)

lemma gmean_not_nan (l : List F) (hfin : ∀ x ∈ l, x ≠ F.inf ∧ x ≠ F.ninf)
    {x0 : F} (hx0 : x0 ∈ l) (hnn : x0.isNan = false) :
    (gmean l).isNan = false := by
  have hx0v : x0 ∈ l.filter (fun x => !x.isNan) :=
    List.mem_filter.mpr ⟨hx0, by simp [hnn]⟩
  have hall : ∀ x ∈ l.filter (fun x => !x.isNan), ∃ q : ℚ, x = F.num q := by
    intro x hx
    have hxl := List.mem_of_mem_filter hx
    have hxn := List.of_mem_filter hx
    cases x with
    | num q => exact ⟨q, rfl⟩
    | nan => simp [F.isNan] at hxn
    | inf => exact absurd rfl (hfin _ hxl).1
    | ninf => exact absurd rfl (hfin _ hxl).2
  simp only [gmean]
  split
  · next heq =>
      rw [heq] at hx0v
      cases hx0v
  · next v vrest heq =>
      rw [heq] at hall
      obtain ⟨s, hs⟩ := foldl_add_num (v :: vrest) hall 0
      rw [heq, hs]
      have hlen : ((vrest.length + 1 : Nat) : ℚ) ≠ 0 := by
        have h0 : (vrest.length + 1 : Nat) ≠ 0 := Nat.succ_ne_zero vrest.length
        exact_mod_cast h0
      simp only [F.div, List.length_cons]
      rw [if_neg hlen]
      rfl

lemma cpiProvTable_year {raw : List CpiRaw} {r : YPVal}
    (h : r ∈ cpiProvTable raw) : 1978 ≤ r.year := by
  obtain ⟨k, hk, rfl⟩ := List.mem_map.mp h
  have hk2 := (mem_dedupByKey_id _ _).mp hk
  obtain ⟨row, hrow, hkey⟩ := List.mem_map.mp hk2
  have hb := List.of_mem_filter hrow
  simp only [Bool.and_eq_true, decide_eq_true_eq] at hb
  have hk1 : k.1 = row.year := by rw [← hkey]
  show 1978 ≤ k.1
  rw [hk1]
  exact hb.2

lemma canadaRows_bounds {raw : List CpiRaw} {r : CpiRaw}
    (h : r ∈ canadaRows raw) : 1975 ≤ r.year ∧ r.year ≤ 1977 := by
  have hb := List.of_mem_filter h
  simp only [Bool.and_eq_true, decide_eq_true_eq] at hb
  exact ⟨hb.1.2, hb.2⟩

lemma canadaAvg_val {raw : List CpiRaw} {y : Int} {v : F}
    (h : (y, v) ∈ canadaAvg raw) : v = canadaAvgAt raw y := by
  obtain ⟨y2, hy2, heq⟩ := List.mem_map.mp h
  obtain ⟨h1, h2⟩ := Prod.mk.injEq .. |>.mp heq
  rw [← h2, h1]

/-- Claim C8 (corrected): run on a raw CPI dataset that has only national
1975-1977 observations, the final CPI table has NO value at
(1980, Alberta), an admitted province and in-range year — so "every
admitted province has a non-null index for every year 1975-1995" fails
without coverage assumptions on the input data (the code never checks
or repairs provincial coverage for 1978-1995). -/
theorem C8_counterexample :
    cpiHasValue (cpiFinal rawC8) 1980 "Alberta" = false ∧
    "Alberta" ∈ includedGeoList ∧
    ((1975 : Int) ≤ 1980 ∧ (1980 : Int) ≤ 1995) := by
  refine ⟨?_, by decide, by decide⟩
  have hcp : cpiProvRows rawC8 = [] := rfl
  have htab : cpiProvTable rawC8 = [] := by
    rw [cpiProvTable, hcp]
    simp [dedupByKey]
  have hcr : canadaRows rawC8 = rawC8 := rfl
  have hyears : (canadaRows rawC8).map (fun r => r.year)
      = [1975, 1976, 1977] := by rw [hcr]; rfl
  have hded : dedupByKey (κ := Int) id [1975, 1976, 1977]
      = [1975, 1976, 1977] := by
    norm_num [dedupByKey]
  have havg : canadaAvg rawC8
      = [(1975, canadaAvgAt rawC8 1975), (1976, canadaAvgAt rawC8 1976),
         (1977, canadaAvgAt rawC8 1977)] := by
    rw [canadaAvg, hyears, hded]
    rfl
  have hext : canadaAvgExt rawC8
      = [(1974, canadaAvgAt rawC8 1975), (1975, canadaAvgAt rawC8 1975),
         (1976, canadaAvgAt rawC8 1976), (1977, canadaAvgAt rawC8 1977)] := by
    rw [canadaAvgExt, havg]
    rfl
  rw [cpiHasValue, cpiFinal, htab, cpiBackfilled, hext]
  rfl

/-- Claim C8 (amended): provided the raw data holds a non-null all-items
observation for every admitted province and every year 1978-1995, and
non-null Canada all-items observations for 1975, 1976 and 1977 (and no
infinities anywhere), then every admitted province has a non-null index
value for every year 1975-1995, and for each year 1975-1977 every
admitted province receives the same value, namely the national (Canada)
all-items average of that year. -/
theorem C8_amended_thm (raw : List CpiRaw)
    (hfin : ∀ r ∈ raw, r.value ≠ F.inf ∧ r.value ≠ F.ninf)
    (hprov : ∀ p ∈ includedGeoList, ∀ y : Int, 1978 ≤ y → y ≤ 1995 →
      ∃ r ∈ raw, allItems r = true ∧ normalizeProvince r.geo = p ∧
        r.year = y ∧ r.value.isNan = false)
    (hcan : ∀ y : Int, 1975 ≤ y → y ≤ 1977 →
      ∃ r ∈ raw, allItems r = true ∧ r.geo = "Canada" ∧ r.year = y ∧
        r.value.isNan = false) :
    (∀ p ∈ includedGeoList, ∀ y : Int, 1975 ≤ y → y ≤ 1995 →
      ∃ v, YPVal.mk y p v ∈ cpiFinal raw ∧ v.isNan = false) ∧
    (∀ y : Int, 1975 ≤ y → y ≤ 1977 → ∀ p ∈ includedGeoList,
      YPVal.mk y p (canadaAvgAt raw y) ∈ cpiFinal raw ∧
        ∀ v, YPVal.mk y p v ∈ cpiFinal raw → v = canadaAvgAt raw y) := by
  have hback : ∀ y : Int, 1975 ≤ y → y ≤ 1977 → ∀ p ∈ includedGeoList,
      YPVal.mk y p (canadaAvgAt raw y) ∈ cpiFinal raw ∧
        ∀ v, YPVal.mk y p v ∈ cpiFinal raw → v = canadaAvgAt raw y := by
    intro y h75 h77 p hp
    obtain ⟨r0, hr0raw, hai, hgeo, hyear, hval⟩ := hcan y h75 h77
    have hr0can : r0 ∈ canadaRows raw := by
      apply List.mem_filter.mpr
      refine ⟨List.mem_filter.mpr ⟨hr0raw, hai⟩, ?_⟩
      simp only [Bool.and_eq_true, decide_eq_true_eq]
      exact ⟨⟨hgeo, hyear ▸ h75⟩, hyear ▸ h77⟩
    have hyk : y ∈ (canadaRows raw).map (fun r => r.year) :=
      List.mem_map.mpr ⟨r0, hr0can, hyear⟩
    have havg : (y, canadaAvgAt raw y) ∈ canadaAvg raw :=
      List.mem_map.mpr ⟨y, (mem_dedupByKey_id _ _).mpr hyk, rfl⟩
    constructor
    · apply List.mem_append_right
      apply List.mem_flatMap.mpr
      refine ⟨p, hp, List.mem_map.mpr ⟨(y, canadaAvgAt raw y), ?_, rfl⟩⟩
      exact List.mem_append_right _ havg
    · intro v hv
      rcases List.mem_append.mp hv with hl | hr
      · have h78 : (1978 : Int) ≤ y := cpiProvTable_year hl
        omega
      · obtain ⟨p2, hp2, hin⟩ := List.mem_flatMap.mp hr
        obtain ⟨⟨y2, v2⟩, hext, heq⟩ := List.mem_map.mp hin
        have hy2 : y2 = y := congrArg YPVal.year heq
        have hv2 : v2 = v := congrArg YPVal.v heq
        rcases List.mem_append.mp hext with h74 | hca
        · obtain ⟨⟨y3, v3⟩, hy3, heq3⟩ := List.mem_map.mp h74
          have h74y : (1974 : Int) = y2 := congrArg Prod.fst heq3
          omega
        · have hcv : v2 = canadaAvgAt raw y2 := canadaAvg_val hca
          rw [← hv2, hcv, hy2]
  refine ⟨?_, hback⟩
  intro p hp y h1 h2
  by_cases hy : 1978 ≤ y
  · obtain ⟨r0, hr0raw, hai, hnorm, hyear, hval⟩ := hprov p hp y hy h2
    have hr0rows : r0 ∈ cpiProvRows raw := by
      apply List.mem_filter.mpr
      refine ⟨List.mem_filter.mpr ⟨hr0raw, hai⟩, ?_⟩
      simp only [Bool.and_eq_true, decide_eq_true_eq]
      exact ⟨by rw [hnorm]; exact hp, hyear ▸ hy⟩
    have hk : ((y, p) : Int × String)
        ∈ (cpiProvRows raw).map (fun r => (r.year, normalizeProvince r.geo)) :=
      List.mem_map.mpr ⟨r0, hr0rows, by rw [hyear, hnorm]⟩
    have hmem : YPVal.mk y p (gmean (cpiGroupVals raw (y, p)))
        ∈ cpiProvTable raw := by
      apply List.mem_map.mpr
      exact ⟨(y, p), (mem_dedupByKey_id _ _).mpr hk, rfl⟩
    have hfing : ∀ x ∈ cpiGroupVals raw (y, p), x ≠ F.inf ∧ x ≠ F.ninf := by
      intro x hx
      obtain ⟨row, hrow, rfl⟩ := List.mem_map.mp hx
      exact hfin row
        (List.mem_of_mem_filter (List.mem_of_mem_filter
          (List.mem_of_mem_filter hrow)))
    have hx0 : r0.value ∈ cpiGroupVals raw (y, p) := by
      apply List.mem_map.mpr
      refine ⟨r0, List.mem_filter.mpr ⟨hr0rows, ?_⟩, rfl⟩
      simp only [decide_eq_true_eq]
      rw [hyear, hnorm]
    exact ⟨gmean (cpiGroupVals raw (y, p)),
      List.mem_append_left _ hmem,
      gmean_not_nan (cpiGroupVals raw (y, p)) hfing hx0 hval⟩
  · have h77 : y ≤ 1977 := by omega
    obtain ⟨hmem, -⟩ := hback y h1 h77 p hp
    obtain ⟨r0, hr0raw, hai, hgeo, hyear, hval⟩ := hcan y h1 h77
    have hr0can : r0 ∈ canadaRows raw := by
      apply List.mem_filter.mpr
      refine ⟨List.mem_filter.mpr ⟨hr0raw, hai⟩, ?_⟩
      simp only [Bool.and_eq_true, decide_eq_true_eq]
      exact ⟨⟨hgeo, hyear ▸ h1⟩, hyear ▸ h77⟩
    have hfing : ∀ x ∈ ((canadaRows raw).filter
        (fun r => decide (r.year = y))).map (fun r => r.value),
        x ≠ F.inf ∧ x ≠ F.ninf := by
      intro x hx
      obtain ⟨row, hrow, rfl⟩ := List.mem_map.mp hx
      exact hfin row
        (List.mem_of_mem_filter (List.mem_of_mem_filter
          (List.mem_of_mem_filter hrow)))
    have hx0 : r0.value ∈ ((canadaRows raw).filter
        (fun r => decide (r.year = y))).map (fun r => r.value) := by
      apply List.mem_map.mpr
      exact ⟨r0, List.mem_filter.mpr ⟨hr0can, by simp [hyear]⟩, rfl⟩
    exact ⟨canadaAvgAt raw y, hmem, gmean_not_nan _ hfing hx0 hval⟩

lemma normProv_fixed : ∀ p ∈ includedGeoList, normalizeProvince p = p := by
  decide

/-- Witness for C8: on the fully covered dataset `rawC8W` the amended
invariant yields a non-null 1990 Alberta index value. -/
theorem C8_witness :
    ∃ v, YPVal.mk 1990 "Alberta" v ∈ cpiFinal rawC8W ∧
      v.isNan = false := by
  have hfin : ∀ r ∈ rawC8W, r.value ≠ F.inf ∧ r.value ≠ F.ninf := by
    intro r hr
    rcases List.mem_append.mp hr with h | h
    · obtain ⟨i, -, hm⟩ := List.mem_flatMap.mp h
      obtain ⟨p, -, rfl⟩ := List.mem_map.mp hm
      exact ⟨fun hc => F.noConfusion hc, fun hc => F.noConfusion hc⟩
    · simp only [List.mem_cons, List.not_mem_nil, or_false] at h
      rcases h with rfl | rfl | rfl <;>
        exact ⟨fun hc => F.noConfusion hc, fun hc => F.noConfusion hc⟩
  have hprov : ∀ p ∈ includedGeoList, ∀ y : Int, 1978 ≤ y → y ≤ 1995 →
      ∃ r ∈ rawC8W, allItems r = true ∧ normalizeProvince r.geo = p ∧
        r.year = y ∧ r.value.isNan = false := by
    intro p hp y hy1 hy2
    refine ⟨⟨1978 + Int.ofNat ((y - 1978).toNat), p, "all-items",
      F.num 50⟩, ?_, rfl, normProv_fixed p hp, ?_, rfl⟩
    · apply List.mem_append_left
      apply List.mem_flatMap.mpr
      refine ⟨(y - 1978).toNat, List.mem_range.mpr (by omega), ?_⟩
      exact List.mem_map.mpr ⟨p, hp, rfl⟩
    · show 1978 + Int.ofNat ((y - 1978).toNat) = y
      simp only [Int.ofNat_eq_natCast]
      omega
  have hcan : ∀ y : Int, 1975 ≤ y → y ≤ 1977 →
      ∃ r ∈ rawC8W, allItems r = true ∧ r.geo = "Canada" ∧ r.year = y ∧
        r.value.isNan = false := by
    intro y hy1 hy2
    interval_cases y
    · exact ⟨⟨1975, "Canada", "All-items", F.num 30⟩,
        List.mem_append_right _ (by decide), rfl, rfl, rfl, rfl⟩
    · exact ⟨⟨1976, "Canada", "All-items", F.num 32⟩,
        List.mem_append_right _ (by decide), rfl, rfl, rfl, rfl⟩
    · exact ⟨⟨1977, "Canada", "All-items", F.num 34⟩,
        List.mem_append_right _ (by decide), rfl, rfl, rfl, rfl⟩
  exact (C8_amended_thm rawC8W hfin hprov hcan).1 "Alberta" (by decide)
    1990 (by norm_num) (by norm_num)

lemma isNan_eq_nan {x : F} (h : x.isNan = true) : x = F.nan := by
  cases x <;> simp_all [F.isNan]

/-- Claim C1 (amended): missing GDP_Real_Total/Population keys in the
full Year×Province grid are computed and reported by the `_miss`
diagnostic — a grid key with no `prov_df` row at all is reported, and so
is a key whose row has a missing Population.  A key absent from the
totals table does not by itself fail the final assertions (they read
only the rows that exist), but a present row with a missing Population
makes the GDP-per-capita assertion fail, halting the run — so such
missingness IS fatal, contrary to the claim. -/
theorem C1_amended_thm (t ct e p : List YPVal) (b w co ch wh : List YRow)
    (u : List FxRow) :
    (∀ k ∈ gridKeys,
      (¬ ∃ r ∈ provRows t ct e p b w co ch wh u,
          r.year = k.1 ∧ r.prov = k.2) →
        k ∈ missKeys (provRows t ct e p b w co ch wh u)) ∧
    (∀ k ∈ gridKeys, ∀ r ∈ provRows t ct e p b w co ch wh u,
      r.year = k.1 → r.prov = k.2 → r.popu.isNan = true →
        k ∈ missKeys (provRows t ct e p b w co ch wh u)) ∧
    (∀ r ∈ provRows t ct e p b w co ch wh u, r.popu.isNan = true →
        assertsPass (provRows t ct e p b w co ch wh u) = false) ∧
    (assertsPass (provRows t ct e p b w co ch wh u) = true ↔
      ∀ r ∈ provRows t ct e p b w co ch wh u,
        (gdpPc r).isNan = false ∧ (wpw r).gtZero = true) := by
  set rows := provRows t ct e p b w co ch wh u with hrows
  refine ⟨?_, ?_, ?_, ?_⟩
  · intro k hk habs
    apply List.mem_filter.mpr
    refine ⟨hk, ?_⟩
    have hnil : rows.filter
        (fun r => decide (r.year = k.1) && decide (r.prov = k.2)) = [] := by
      apply List.filter_eq_nil_iff.mpr
      intro r hr
      simp only [Bool.and_eq_true, decide_eq_true_eq]
      rintro ⟨hy, hp⟩
      exact habs ⟨r, hr, hy, hp⟩
    show ((rows.filter
        (fun r => decide (r.year = k.1) && decide (r.prov = k.2))).isEmpty
      || (rows.filter
        (fun r => decide (r.year = k.1) && decide (r.prov = k.2))).any
          (fun r => r.gdpTot.isNan || r.popu.isNan)) = true
    rw [hnil]
    rfl
  · intro k hk r hr hy hp hnan
    apply List.mem_filter.mpr
    refine ⟨hk, ?_⟩
    have hrm : r ∈ rows.filter
        (fun r => decide (r.year = k.1) && decide (r.prov = k.2)) := by
      apply List.mem_filter.mpr
      refine ⟨hr, ?_⟩
      simp [hy, hp]
    show ((rows.filter
        (fun r => decide (r.year = k.1) && decide (r.prov = k.2))).isEmpty
      || (rows.filter
        (fun r => decide (r.year = k.1) && decide (r.prov = k.2))).any
          (fun r => r.gdpTot.isNan || r.popu.isNan)) = true
    apply Bool.or_eq_true_iff.mpr
    right
    apply List.any_eq_true.mpr
    exact ⟨r, hrm, by simp [hnan]⟩
  · intro r hr hnan
    have hgd : (gdpPc r).isNan = true := by
      rw [gdpPc, isNan_eq_nan hnan, div_nan]
      rfl
    have hall : rows.all (fun x => !(gdpPc x).isNan) = false := by
      cases hc : rows.all (fun x => !(gdpPc x).isNan) with
      | false => rfl
      | true =>
          have h1 := List.all_eq_true.mp hc r hr
          rw [hgd] at h1
          simp at h1
    rw [assertsPass, hall]
    rfl
  · rw [assertsPass, Bool.and_eq_true, List.all_eq_true, List.all_eq_true]
    constructor
    · rintro ⟨h1, h2⟩ r hr
      refine ⟨?_, h2 r hr⟩
      have := h1 r hr
      simpa using this
    · intro h
      refine ⟨fun r hr => ?_, fun r hr => (h r hr).2⟩
      simp [(h r hr).1]

/-- Claim C1 (corrected): a dataset whose totals table has (1975,
Alberta) but whose population table is empty reports the missing key in
`_miss` — yet the run still halts: the GDP-per-capita assertion fails on
the NaN population.  This refutes "missing ... Population ... does not
halt the run". -/
theorem C1_counterexample :
    (1975, "Alberta") ∈ missKeys provC1 ∧
    assertsPass provC1 = false := by
  constructor
  · apply List.mem_filter.mpr
    refine ⟨by decide, ?_⟩
    have hpr : provC1
        = [⟨1975, "Alberta", F.num 100, F.num 5, F.num 10, F.nan⟩] := rfl
    rw [hpr]
    rfl
  · rfl

/-- Witness for C1: the halting branch of the amended claim at the
concrete dataset. -/
theorem C1_witness :
    assertsPass (provRows tC1 ctC1 eC1 [] [] [] [] [] [] []) = false :=
  (C1_amended_thm tC1 ctC1 eC1 [] [] [] [] [] [] []).2.2.1
    ⟨1975, "Alberta", F.num 100, F.num 5, F.num 10, F.nan⟩ (by decide) rfl

end NEP
